import Mathlib

/-!
Verification development for the multi-turn appointment-booking dialogue
engine of the veterinary-chatbot repository.

The engine lives in `appointmentFlowService.js` (field schema with
validators and extraction regexes, natural-language date/time parsers,
intent keywords, and the per-turn `processMessage` state machine) and is
driven by the chat controller (`chatController.js`), which pre-populates
booking state from conversation context and raw extraction results.

Modelling decisions, applied uniformly:

* Strings are Lean `String`s; all scanning works on `List Char`.  The
  source's regexes are transcribed into a small regex AST (`Re`) with a
  backtracking matcher that mirrors JavaScript semantics for the pattern
  class actually used (ordered alternation, greedy quantifiers, leftmost
  match, numbered capture groups).
* JavaScript `Date` values with the time-of-day zeroed are modelled as
  `Int` day numbers (days since 1970-01-01); civil (year, month, day)
  conversions use the standard Gregorian algorithms, matching ECMAScript
  `MakeDay`/date decomposition.  Per the spec ("no timezone conversion,
  calendar date only") the host timezone is taken as UTC, so ISO parsing
  and local accessors agree.
* `new Date(string)` is ECMAScript-defined only for ISO strings; beyond
  those its behaviour is implementation-specific.  It is modelled as
  `jsParseDate legacy s`: an exact `YYYY-MM-DD` parser (the mandated ISO
  date form) falling back to an abstract `legacy : String → Option Int`
  parameter over which theorems quantify.
* The optional generative-AI extraction adapter is an external
  collaborator that the engine must tolerate being absent
  (`geminiService.isAvailable() = false`); `analyzeMessage` is embedded
  as its regex-only fallback path, which is also the path all claims
  target.
* The unused `conversationHistory` argument of the fallback path is
  dropped; the `attempts` map is carried in the state record (the source
  never updates it).
-/

namespace VetChat

/-! ## Character utilities (ASCII, as used by the source's regexes) -/

/-- Lower-case an ASCII character, as `String.prototype.toLowerCase` does
on ASCII input. -/
def toLowerChar (c : Char) : Char :=
  if 65 ≤ c.toNat ∧ c.toNat ≤ 90 then Char.ofNat (c.toNat + 32) else c

/-- Lower-case a character list. -/
def lowerL (l : List Char) : List Char := l.map toLowerChar

/-- ASCII whitespace, the `\s` class restricted to ASCII. -/
def isWsChar (c : Char) : Bool :=
  c.toNat = 32 || (9 ≤ c.toNat && c.toNat ≤ 13)

/-- The `[0-9]` (and `\d`) class. -/
def isDigitChar (c : Char) : Bool :=
  48 ≤ c.toNat && c.toNat ≤ 57

/-- ASCII letter, the `[a-zA-Z]` class. -/
def isAsciiLetter (c : Char) : Bool :=
  (65 ≤ c.toNat && c.toNat ≤ 90) || (97 ≤ c.toNat && c.toNat ≤ 122)

/-- The `\w` class: `[A-Za-z0-9_]`. -/
def isWordChar (c : Char) : Bool :=
  isAsciiLetter c || isDigitChar c || c.toNat = 95

/-- The character class `[a-zA-Z\s\-']` of the owner-name validator. -/
def isNameChar (c : Char) : Bool :=
  isAsciiLetter c || isWsChar c || c.toNat = 45 || c.toNat = 39

/-- The separator class `[-.\s]` of the phone extraction patterns. -/
def isPhoneSep (c : Char) : Bool :=
  c.toNat = 45 || c.toNat = 46 || isWsChar c

/-- Trim ASCII whitespace from both ends, as `String.prototype.trim`. -/
def trimL (l : List Char) : List Char :=
  ((l.dropWhile isWsChar).reverse.dropWhile isWsChar).reverse

/-- Trim a string. -/
def trimS (s : String) : String := String.mk (trimL s.data)

/-- Does `pat` occur literally at the head of `l`? -/
def startsWithL : List Char → List Char → Bool
  | [], _ => true
  | _ :: _, [] => false
  | p :: ps, c :: cs => p = c && startsWithL ps cs

/-- `String.prototype.includes`: does `pat` occur as a contiguous
substring of `l`? -/
def containsSub (pat : List Char) : List Char → Bool
  | [] => startsWithL pat []
  | c :: t => startsWithL pat (c :: t) || containsSub pat t

/-! ## Decimal digits -/

/-- The decimal digit character for `k % 10`-style uses; inputs are
always in `0..9`. -/
def digitChar : Nat → Char
  | 0 => '0' | 1 => '1' | 2 => '2' | 3 => '3' | 4 => '4'
  | 5 => '5' | 6 => '6' | 7 => '7' | 8 => '8' | _ => '9'

/-- Fuel-driven decimal rendering; the fuel only bounds the digit count,
so any fuel above `n` computes the digits of `n`. -/
def natToCharsAux : Nat → Nat → List Char
  | 0, _ => []
  | fuel + 1, n =>
    if n < 10 then [digitChar n]
    else natToCharsAux fuel (n / 10) ++ [digitChar (n % 10)]

/-- Decimal rendering of a natural number, as JavaScript number-to-string
conversion produces for integers. -/
def natToChars (n : Nat) : List Char := natToCharsAux (n + 1) n

/-- Numeric value of a decimal digit character. -/
def digitVal (c : Char) : Nat := c.toNat - 48

/-- `parseInt` restricted to all-digit inputs (the only inputs the source
feeds it from capture groups). -/
def charsToNat (l : List Char) : Nat :=
  l.foldl (fun a c => 10 * a + digitVal c) 0

/-- Decimal rendering of an integer (`${year}` in templates). -/
def intToChars (i : Int) : List Char :=
  if i < 0 then '-' :: natToChars (-i).toNat else natToChars i.toNat

/-- Render an integer as a string. -/
def intToStr (i : Int) : String := String.mk (intToChars i)

/-- `String(n).padStart(2, '0')` for the nonnegative numbers the source
pads (months, days, hours, minutes). -/
def pad2 (i : Int) : String :=
  if 0 ≤ i ∧ i < 10 then String.mk ('0' :: intToChars i) else intToStr i

/-! ## A small regex engine

The AST covers exactly the constructs appearing in the source's patterns:
literals (case-sensitive and `/i` case-insensitive), one-character
classes, concatenation, ordered alternation, greedy `?`, greedy
class repetitions (`{n}`, `{lo,hi}`, `*`, `+` over a character class),
and numbered capture groups.  `runAll` returns every way the pattern can
match a prefix of the input, in JavaScript backtracking priority order
(greedy first, alternation in source order), so the head of the list is
the match JavaScript commits to. -/

/-- Regex AST. -/
inductive Re where
  | lit (s : List Char)
  | litCI (s : List Char)
  | cls (p : Char → Bool)
  | seq (a b : Re)
  | alt (a b : Re)
  | opt (a : Re)
  | reps (p : Char → Bool) (lo : Nat) (hi : Option Nat)
  | group (i : Nat) (a : Re)

/-- Match a case-sensitive literal at the head, returning the rest. -/
def dropLit : List Char → List Char → Option (List Char)
  | [], l => some l
  | _ :: _, [] => none
  | p :: ps, c :: cs => if c = p then dropLit ps cs else none

/-- Match a case-insensitive literal (stored lower-case) at the head. -/
def dropLitCI : List Char → List Char → Option (List Char)
  | [], l => some l
  | _ :: _, [] => none
  | p :: ps, c :: cs => if toLowerChar c = p then dropLitCI ps cs else none

/-- Candidate consumption counts for a greedy class repetition, longest
first. -/
def repsChoices (p : Char → Bool) (lo : Nat) (hi : Option Nat) (l : List Char) : List Nat :=
  let run := (l.takeWhile p).length
  let top := match hi with
    | some h => min h run
    | none => run
  (List.range (top + 1)).reverse.filter (fun k => lo ≤ k)

/-- All ways `re` matches a prefix of `l`: for each, the consumed
prefix, the remaining input, and the captured groups, in backtracking
priority order. -/
def Re.runAll : Re → List Char → List ((List Char × List Char) × List (Nat × List Char))
  | .lit s, l =>
    match dropLit s l with
    | some r => [((l.take s.length, r), [])]
    | none => []
  | .litCI s, l =>
    match dropLitCI s l with
    | some r => [((l.take s.length, r), [])]
    | none => []
  | .cls p, l =>
    match l with
    | [] => []
    | c :: r => if p c then [(([c], r), [])] else []
  | .seq a b, l =>
    (Re.runAll a l).flatMap fun x =>
      (Re.runAll b x.1.2).map fun y => ((x.1.1 ++ y.1.1, y.1.2), x.2 ++ y.2)
  | .alt a b, l => Re.runAll a l ++ Re.runAll b l
  | .opt a, l => Re.runAll a l ++ [(([], l), [])]
  | .reps p lo hi, l => (repsChoices p lo hi l).map fun k => ((l.take k, l.drop k), [])
  | .group i a, l =>
    (Re.runAll a l).map fun x => (x.1, (i, x.1.1) :: x.2)

/-- Leftmost match: scan start positions left to right and commit to the
first position with a match, taking the highest-priority result — the
semantics of `String.prototype.match` without the `g` flag. -/
def searchAux (re : Re) : List Char → Option (List (Nat × List Char))
  | [] =>
    match re.runAll [] with
    | r :: _ => some r.2
    | [] => none
  | c :: t =>
    match re.runAll (c :: t) with
    | r :: _ => some r.2
    | [] => searchAux re t

/-- Look up capture group `i` in a match result (`match[i]`); `none` is
JavaScript's `undefined` for a group that did not participate. -/
def capL (i : Nat) (caps : List (Nat × List Char)) : Option (List Char) :=
  (caps.find? (fun x => x.1 = i)).map (fun x => x.2)

/-! ## Civil-date arithmetic

Dates with the time of day zeroed are `Int` day numbers since
1970-01-01.  `daysFromCivil`/`civilFromDays` are the standard Gregorian
conversions (months `1..12`), which is what ECMAScript's
`MakeDay`/`YearFromTime`/`MonthFromTime`/`DateFromTime` compute. -/

/-- Day number of the civil date (y, m, d), months `1..12`; linear in
`d`, so out-of-range days roll over exactly as ECMAScript `MakeDay`
does.  Lean's `Int` division by a positive literal is floor division,
which is exactly what the usual era computation produces. -/
def daysFromCivil (y m d : Int) : Int :=
  let y1 : Int := if m ≤ 2 then y - 1 else y
  let era : Int := y1 / 400
  let yoe : Int := y1 - era * 400
  let doy : Int := (153 * (if 2 < m then m - 3 else m + 9) + 2) / 5 + d - 1
  let doe : Int := yoe * 365 + yoe / 4 - yoe / 100 + doy
  era * 146097 + doe - 719468

/-- Days from the start of a 400-year era to the start of its March-based
year `yoe` (the `/400` leap term is omitted: within an era `yoe ≤ 399`,
and the era's own quadricentennial leap day is handled by the clamp in
`civilFromDays`). -/
def eraYearStart (yoe : Int) : Int :=
  365 * yoe + yoe / 4 - yoe / 100

/-- March-based year of the era of a day-of-era: a `/366`
under-approximation corrected upward once, clamped on the era's final
(quadricentennial) leap day. -/
def yoeOfDoe (doe : Int) : Int :=
  let cand : Int :=
    if eraYearStart (doe / 366 + 1) ≤ doe then doe / 366 + 1 else doe / 366
  if cand = 400 then 399 else cand

/-- Civil (year-of-era adjusted for the Jan/Feb wrap, month `1..12`, day
`1..31`) of a day-of-era in `[0, 146096]`. -/
def civilOfDoe (doe : Int) : Int × Int × Int :=
  let yoe : Int := yoeOfDoe doe
  let doy : Int := doe - eraYearStart yoe
  let mp : Int := (5 * doy + 2) / 153
  let d : Int := doy - (153 * mp + 2) / 5 + 1
  let m : Int := if mp < 10 then mp + 3 else mp - 9
  (if m ≤ 2 then yoe + 1 else yoe, m, d)

/-- Civil date (year, month `1..12`, day `1..31`) of a day number — the
standard Gregorian decomposition ECMAScript's date accessors compute. -/
def civilFromDays (z0 : Int) : Int × Int × Int :=
  let z : Int := z0 + 719468
  let era : Int := z / 146097
  let doe : Int := z - era * 146097
  let c := civilOfDoe doe
  (era * 400 + c.1, c.2.1, c.2.2)

/-- `date.getFullYear()`. -/
def jsGetFullYear (n : Int) : Int := (civilFromDays n).1

/-- `date.getMonth()` (0-based month index). -/
def jsGetMonth (n : Int) : Int := (civilFromDays n).2.1 - 1

/-- `date.getDate()` (day of month). -/
def jsGetDate (n : Int) : Int := (civilFromDays n).2.2

/-- `date.getDay()`: ECMAScript `WeekDay(t) = (Day(t) + 4) modulo 7`,
`0` = Sunday. -/
def jsGetDay (n : Int) : Int := (n + 4) % 7

/-- `new Date(year, monthIndex, day)` (time fields zero): ECMAScript
`MakeDay`, with the 0-based month index floor-normalised into the year. -/
def jsMakeDay (y monthIdx d : Int) : Int :=
  daysFromCivil (y + monthIdx.fdiv 12) (monthIdx % 12 + 1) d

/-- `date.setFullYear(y2)`: keep month and day-of-month, rolling an
out-of-range day (Feb 29 into a non-leap year) forward as `MakeDay`
does. -/
def jsSetFullYear (n y2 : Int) : Int :=
  jsMakeDay y2 (jsGetMonth n) (jsGetDate n)

/-- Leap year predicate (Gregorian). -/
def isLeapYear (y : Int) : Bool :=
  (y % 4 = 0 && y % 100 ≠ 0) || y % 400 = 0

/-- Days in a month (month `1..12`). -/
def daysInMonth (y m : Int) : Int :=
  if m = 2 then (if isLeapYear y then 29 else 28)
  else if m = 4 ∨ m = 6 ∨ m = 9 ∨ m = 11 then 30
  else 31

/-- `formatDate(date)` of the source: `YYYY-MM-DD` with month and day
zero-padded to two characters and the year rendered as-is. -/
def formatDate (n : Int) : String :=
  intToStr (jsGetFullYear n) ++ "-" ++ pad2 (jsGetMonth n + 1) ++ "-" ++ pad2 (jsGetDate n)

/-! ## The implementation-defined generic date parser

`new Date(string)` must accept the ISO `YYYY-MM-DD` form (ECMAScript
date-time string format); everything else is implementation-specific
fallback parsing, abstracted as a `legacy` function parameter.  A day
number is returned for a string parsing to a valid date; `none` is
`Invalid Date`. -/

/-- Exact-match ISO `YYYY-MM-DD` parse, validating the calendar date as
the ECMAScript ISO parser does. -/
def isoParse (s : String) : Option Int :=
  match s.data with
  | [y1, y2, y3, y4, s1, m1, m2, s2, d1, d2] =>
    if s1 = '-' ∧ s2 = '-' ∧ [y1, y2, y3, y4, m1, m2, d1, d2].all isDigitChar then
      let y : Int := Int.ofNat (charsToNat [y1, y2, y3, y4])
      let m : Int := Int.ofNat (charsToNat [m1, m2])
      let d : Int := Int.ofNat (charsToNat [d1, d2])
      if 1 ≤ m ∧ m ≤ 12 ∧ 1 ≤ d ∧ d ≤ daysInMonth y m then
        some (daysFromCivil y m d)
      else none
    else none
  | _ => none

/-- `new Date(string)`: ISO first (ECMAScript-mandated), then the
implementation-specific legacy parser. -/
def jsParseDate (legacy : String → Option Int) (s : String) : Option Int :=
  match isoParse s with
  | some n => some n
  | none => legacy s

/-! ## Regex patterns of the date/time parsers -/

/-- Chain an ordered alternation from a non-empty list (left-to-right
priority, as JavaScript `|`). -/
def altChain : List Re → Re
  | [] => .lit []
  | [r] => r
  | r :: rest => .alt r (altChain rest)

/-- Case-insensitive literal from a string. -/
def ciLit (s : String) : Re := .litCI s.data

/-- The weekday alternation `(monday|tuesday|wednesday|thursday|friday|saturday|sunday)`. -/
def weekdayAlt : Re :=
  altChain [ciLit "monday", ciLit "tuesday", ciLit "wednesday", ciLit "thursday",
    ciLit "friday", ciLit "saturday", ciLit "sunday"]

/-- `/next\s+(monday|...|sunday)/i`. -/
def nextDayRe : Re :=
  .seq (ciLit "next") (.seq (.reps isWsChar 1 none) (.group 1 weekdayAlt))

/-- `/this\s+(monday|...|sunday)/i`. -/
def thisDayRe : Re :=
  .seq (ciLit "this") (.seq (.reps isWsChar 1 none) (.group 1 weekdayAlt))

/-- The ordinal suffix `(?:st|nd|rd|th)`. -/
def ordinalAlt : Re :=
  altChain [ciLit "st", ciLit "nd", ciLit "rd", ciLit "th"]

/-- The month-name alternation
`(jan(?:uary)?|feb(?:ruary)?|mar(?:ch)?|apr(?:il)?|may|jun(?:e)?|jul(?:y)?|aug(?:ust)?|sep(?:tember)?|oct(?:ober)?|nov(?:ember)?|dec(?:ember)?)`. -/
def monthAlt : Re :=
  altChain [
    .seq (ciLit "jan") (.opt (ciLit "uary")),
    .seq (ciLit "feb") (.opt (ciLit "ruary")),
    .seq (ciLit "mar") (.opt (ciLit "ch")),
    .seq (ciLit "apr") (.opt (ciLit "il")),
    ciLit "may",
    .seq (ciLit "jun") (.opt (ciLit "e")),
    .seq (ciLit "jul") (.opt (ciLit "y")),
    .seq (ciLit "aug") (.opt (ciLit "ust")),
    .seq (ciLit "sep") (.opt (ciLit "tember")),
    .seq (ciLit "oct") (.opt (ciLit "ober")),
    .seq (ciLit "nov") (.opt (ciLit "ember")),
    .seq (ciLit "dec") (.opt (ciLit "ember"))]

/-- `/(?:(\d{1,2})(?:st|nd|rd|th)?\s+)?(jan(?:uary)?|...)\s*(\d{1,2})?(?:st|nd|rd|th)?/i`. -/
def monthDayRe : Re :=
  .seq
    (.opt (.seq (.group 1 (.reps isDigitChar 1 (some 2)))
      (.seq (.opt ordinalAlt) (.reps isWsChar 1 none))))
    (.seq (.group 2 monthAlt)
      (.seq (.reps isWsChar 0 none)
        (.seq (.opt (.group 3 (.reps isDigitChar 1 (some 2)))) (.opt ordinalAlt))))

/-- `/(\d{4})-(\d{2})-(\d{2})/` (the whole match is also recorded, as
group 0, because the source uses `isoMatch[0]`). -/
def isoSubRe : Re :=
  .group 0 (.seq (.group 1 (.reps isDigitChar 4 (some 4)))
    (.seq (.lit ['-'])
      (.seq (.group 2 (.reps isDigitChar 2 (some 2)))
        (.seq (.lit ['-']) (.group 3 (.reps isDigitChar 2 (some 2)))))))

/-- `/(\d{1,2})\/(\d{1,2})\/(\d{4})/`. -/
def slashRe : Re :=
  .seq (.group 1 (.reps isDigitChar 1 (some 2)))
    (.seq (.lit ['/'])
      (.seq (.group 2 (.reps isDigitChar 1 (some 2)))
        (.seq (.lit ['/']) (.group 3 (.reps isDigitChar 4 (some 4))))))

/-- Month-name lookup of the `monthNames` map (0-based index). -/
def monthIndex (s : List Char) : Option Int :=
  if s = "jan".data ∨ s = "january".data then some 0
  else if s = "feb".data ∨ s = "february".data then some 1
  else if s = "mar".data ∨ s = "march".data then some 2
  else if s = "apr".data ∨ s = "april".data then some 3
  else if s = "may".data then some 4
  else if s = "jun".data ∨ s = "june".data then some 5
  else if s = "jul".data ∨ s = "july".data then some 6
  else if s = "aug".data ∨ s = "august".data then some 7
  else if s = "sep".data ∨ s = "september".data then some 8
  else if s = "oct".data ∨ s = "october".data then some 9
  else if s = "nov".data ∨ s = "november".data then some 10
  else if s = "dec".data ∨ s = "december".data then some 11
  else none

/-- Weekday-name lookup in
`['sunday', 'monday', 'tuesday', 'wednesday', 'thursday', 'friday', 'saturday']`
(`indexOf`, 0 = Sunday). -/
def weekdayIndex (s : List Char) : Int :=
  if s = "sunday".data then 0
  else if s = "monday".data then 1
  else if s = "tuesday".data then 2
  else if s = "wednesday".data then 3
  else if s = "thursday".data then 4
  else if s = "friday".data then 5
  else if s = "saturday".data then 6
  else -1

/-! ## parseNaturalDate -/

/-- The `next <weekday>` day offset: `daysUntil = target - current`,
bumped by 7 when non-positive, then by 7 again ("next" means the
following week). -/
def nextWeekdayOffset (today target : Int) : Int :=
  let daysUntil := target - jsGetDay today
  (if daysUntil ≤ 0 then daysUntil + 7 else daysUntil) + 7

/-- The `this <weekday>` day offset: `daysUntil = target - current`,
bumped by 7 when non-positive. -/
def thisWeekdayOffset (today target : Int) : Int :=
  let daysUntil := target - jsGetDay today
  if daysUntil ≤ 0 then daysUntil + 7 else daysUntil

/-- The month-name branch: resolve (0-based month, day) against the
current year, rolling to the next year when the resolved date is already
past. -/
def resolveMonthDay (today : Int) (month day : Int) : Int :=
  let year := jsGetFullYear today
  let date := jsMakeDay year month day
  if date < today then jsSetFullYear date (year + 1) else date

/-- The tail of `parseNaturalDate` after the natural-language branches:
generic `new Date(text)`, then a `YYYY-MM-DD` substring, then a
`MM/DD/YYYY` substring. -/
def genericDateTail (legacy : String → Option Int) (_today : Int) (text : String) : Option String :=
  match jsParseDate legacy text with
  | some n => some (formatDate n)
  | none =>
    match searchAux isoSubRe text.data with
    | some caps =>
      match capL 0 caps with
      | some whole => some (String.mk whole)
      | none => none
    | none =>
      match searchAux slashRe text.data with
      | some caps =>
        match capL 1 caps, capL 2 caps, capL 3 caps with
        | some first, some second, some year =>
          some (formatDate (jsMakeDay (Int.ofNat (charsToNat year))
            (Int.ofNat (charsToNat first) - 1) (Int.ofNat (charsToNat second))))
        | _, _, _ => none
      | none => none

/-- `parseNaturalDate(text)` of the source: natural-language date
expressions to `YYYY-MM-DD`.  `legacy` is the implementation-specific
part of `new Date(string)`; `today` is the current date with the time
zeroed. -/
def parseNaturalDate (legacy : String → Option Int) (today : Int) (text : String) : Option String :=
  if text = "" then none
  else
    let lowerText := trimL (lowerL text.data)
    if lowerText = "today".data then some (formatDate today)
    else if lowerText = "tomorrow".data then some (formatDate (today + 1))
    else if containsSub "day after tomorrow".data lowerText then some (formatDate (today + 2))
    else if lowerText = "next week".data then some (formatDate (today + 7))
    else
      match searchAux nextDayRe lowerText with
      | some caps =>
        match capL 1 caps with
        | some w => some (formatDate (today + nextWeekdayOffset today (weekdayIndex (lowerL w))))
        | none => none
      | none =>
      match searchAux thisDayRe lowerText with
      | some caps =>
        match capL 1 caps with
        | some w => some (formatDate (today + thisWeekdayOffset today (weekdayIndex (lowerL w))))
        | none => none
      | none =>
      match searchAux monthDayRe lowerText with
      | some caps =>
        (match monthIndex (lowerL ((capL 2 caps).getD [])),
               (capL 1 caps).or (capL 3 caps) with
         | some month, some dayChars =>
           some (formatDate (resolveMonthDay today month (Int.ofNat (charsToNat dayChars))))
         | _, _ =>
           -- `day` is `NaN` (or the month unknown): fall through to the
           -- generic parser, as the source's guarded block does.
           genericDateTail legacy today text)
      | none => genericDateTail legacy today text

/-! ## parseNaturalTime -/

/-- `/(\d{1,2})(?::(\d{2}))?\s*(am|pm)/i`. -/
def amPmRe : Re :=
  .seq (.group 1 (.reps isDigitChar 1 (some 2)))
    (.seq (.opt (.seq (.lit [':']) (.group 2 (.reps isDigitChar 2 (some 2)))))
      (.seq (.reps isWsChar 0 none) (.group 3 (.alt (ciLit "am") (ciLit "pm")))))

/-- `/(\d{1,2})(am|pm)/i`. -/
def simpleAmPmRe : Re :=
  .seq (.group 1 (.reps isDigitChar 1 (some 2)))
    (.group 2 (.alt (ciLit "am") (ciLit "pm")))

/-- `/(\d{1,2}):(\d{2})/`. -/
def hourMinRe : Re :=
  .seq (.group 1 (.reps isDigitChar 1 (some 2)))
    (.seq (.lit [':']) (.group 2 (.reps isDigitChar 2 (some 2))))

/-- Resolve parsed hour/minute with an am/pm marker and render `HH:MM`,
as the two am/pm branches of `parseNaturalTime` do. -/
def renderAmPm (hours0 minutes : Int) (isPm : Bool) : String :=
  let h1 := if isPm ∧ hours0 ≠ 12 then hours0 + 12 else hours0
  let h2 := if ¬ isPm ∧ h1 = 12 then 0 else h1
  pad2 h2 ++ ":" ++ pad2 minutes

/-- `parseNaturalTime(text)` of the source: natural-language time
expressions to `HH:MM`. -/
def parseNaturalTime (text : String) : Option String :=
  if text = "" then none
  else
    let lowerText := trimL (lowerL text.data)
    if lowerText = "morning".data ∨ lowerText = "in the morning".data then some "09:00"
    else if lowerText = "afternoon".data ∨ lowerText = "in the afternoon".data then some "14:00"
    else if lowerText = "evening".data ∨ lowerText = "in the evening".data then some "17:00"
    else if lowerText = "noon".data ∨ lowerText = "midday".data then some "12:00"
    else
      match searchAux amPmRe lowerText with
      | some caps =>
        (match capL 1 caps, capL 3 caps with
         | some hs, some ampm =>
           let minutes : Int := Int.ofNat (charsToNat ((capL 2 caps).getD ['0']))
           some (renderAmPm (Int.ofNat (charsToNat hs)) minutes (lowerL ampm = "pm".data))
         | _, _ => none)
      | none =>
      match searchAux simpleAmPmRe lowerText with
      | some caps =>
        (match capL 1 caps, capL 2 caps with
         | some hs, some ampm =>
           some (renderAmPm (Int.ofNat (charsToNat hs)) 0 (lowerL ampm = "pm".data))
         | _, _ => none)
      | none =>
      match searchAux hourMinRe lowerText with
      | some caps =>
        (match capL 1 caps, capL 2 caps with
         | some hs, some ms =>
           let hours : Int := Int.ofNat (charsToNat hs)
           let minutes : Int := Int.ofNat (charsToNat ms)
           if 0 ≤ hours ∧ hours ≤ 23 ∧ 0 ≤ minutes ∧ minutes ≤ 59 then
             some (pad2 hours ++ ":" ++ pad2 minutes)
           else none
         | _, _ => none)
      | none =>
        -- `/^(\d{1,2})$/`: a bare 1-2 digit number, taken as an hour
        -- only within 8..18.
        if lowerText.all isDigitChar ∧ 1 ≤ lowerText.length ∧ lowerText.length ≤ 2 then
          let hours : Int := Int.ofNat (charsToNat lowerText)
          if 8 ≤ hours ∧ hours ≤ 18 then some (pad2 hours ++ ":00") else none
        else none

/-! ## Display formatting -/

/-- Capitalised weekday names as `toLocaleDateString('en-US',
{weekday:'long'})` renders them; index 0 = Sunday. -/
def weekdayName (i : Int) : String :=
  if i = 0 then "Sunday"
  else if i = 1 then "Monday"
  else if i = 2 then "Tuesday"
  else if i = 3 then "Wednesday"
  else if i = 4 then "Thursday"
  else if i = 5 then "Friday"
  else "Saturday"

/-- Capitalised month names (index `1..12`). -/
def monthName (m : Int) : String :=
  if m = 1 then "January"
  else if m = 2 then "February"
  else if m = 3 then "March"
  else if m = 4 then "April"
  else if m = 5 then "May"
  else if m = 6 then "June"
  else if m = 7 then "July"
  else if m = 8 then "August"
  else if m = 9 then "September"
  else if m = 10 then "October"
  else if m = 11 then "November"
  else "December"

/-- Render a day number in the en-US long form `Weekday, Month D, YYYY`
of `toLocaleDateString('en-US', {weekday:'long', year:'numeric',
month:'long', day:'numeric'})`. -/
def renderLongDate (n : Int) : String :=
  weekdayName (jsGetDay n) ++ ", " ++ monthName (jsGetMonth n + 1) ++ " " ++
    intToStr (jsGetDate n) ++ ", " ++ intToStr (jsGetFullYear n)

/-- `formatDateForDisplay(dateStr)`: parse with `new Date` and render the
long en-US form; an unparseable string renders as JavaScript's
`"Invalid Date"`. -/
def formatDateForDisplay (legacy : String → Option Int) (dateStr : String) : String :=
  match jsParseDate legacy dateStr with
  | some n => renderLongDate n
  | none => "Invalid Date"

/-- `formatTimeForDisplay(timeStr)`: split `HH:MM`, 12-hour clock with
AM/PM (`hours % 12 || 12`). -/
def formatTimeForDisplay (timeStr : String) : String :=
  let parts := timeStr.data.splitOn ':'
  let hours : Int := Int.ofNat (charsToNat (parts.headD []))
  let minutes : Int := Int.ofNat (charsToNat ((parts.drop 1).headD []))
  let ampm := if 12 ≤ hours then "PM" else "AM"
  let dh := if hours % 12 = 0 then (12 : Int) else hours % 12
  intToStr dh ++ ":" ++ pad2 minutes ++ " " ++ ampm

/-! ## Field schema -/

/-- The closed field enumeration: the five required fields plus the
optional `notes`. -/
inductive FieldName where
  | petOwnerName | petName | phoneNumber | preferredDate | preferredTime | notes
deriving DecidableEq

/-- `REQUIRED_FIELDS`, in source order. -/
def requiredFields : List FieldName :=
  [.petOwnerName, .petName, .phoneNumber, .preferredDate, .preferredTime]

/-- A JavaScript object keyed by field name: present keys map to
strings. -/
def Fields : Type := FieldName → Option String

/-- The empty object. -/
def emptyFields : Fields := fun _ => none

/-- Object update (`obj[field] = value`). -/
def setField (f : Fields) (k : FieldName) (v : String) : Fields :=
  fun k2 => if k2 = k then some v else f k2

/-- Validation outcome: `{valid: true}` or `{valid: false, error}`. -/
inductive VRes where
  | valid
  | invalid (reason : String)
deriving DecidableEq

/-- `FIELD_CONFIG.petOwnerName.validate`. -/
def validatePetOwnerName (v : String) : VRes :=
  if v = "" ∨ (trimL v.data).length < 2 then .invalid "Name must be at least 2 characters"
  else if 50 < v.data.length then .invalid "Name is too long"
  else if v.data ≠ [] ∧ v.data.all isNameChar then .valid
  else .invalid "Name should only contain letters"

/-- `FIELD_CONFIG.petName.validate`. -/
def validatePetName (v : String) : VRes :=
  if v = "" ∨ (trimL v.data).length < 1 then .invalid "Pet name is required"
  else if 30 < v.data.length then .invalid "Pet name is too long"
  else .valid

/-- `FIELD_CONFIG.phoneNumber.validate`: strip non-digits, require 10-15
digits. -/
def validatePhoneNumber (v : String) : VRes :=
  if v = "" then .invalid "Phone number is required"
  else
    let digits := v.data.filter isDigitChar
    if digits.length < 10 ∨ 15 < digits.length then
      .invalid "Please provide a valid phone number with 10+ digits"
    else .valid

/-- `FIELD_CONFIG.preferredDate.validate`: must parse with `new Date`,
be on or after today and within 90 days. -/
def validatePreferredDate (legacy : String → Option Int) (today : Int) (v : String) : VRes :=
  if v = "" then .invalid "Date is required"
  else
    match jsParseDate legacy v with
    | none => .invalid "Invalid date format"
    | some n =>
      if n < today then .invalid "Date cannot be in the past"
      else if today + 90 < n then .invalid "Date must be within the next 90 days"
      else .valid

/-- The anchored time format `^([01]?[0-9]|2[0-3]):[0-5][0-9]$`. -/
def timeFormatOk (l : List Char) : Bool :=
  match l with
  | [h1, ':', m1, m2] =>
    isDigitChar h1 && (48 ≤ m1.toNat && m1.toNat ≤ 53) && isDigitChar m2
  | [h1, h2, ':', m1, m2] =>
    ((h1 = '0' || h1 = '1') && isDigitChar h2 || h1 = '2' && (48 ≤ h2.toNat && h2.toNat ≤ 51))
      && (48 ≤ m1.toNat && m1.toNat ≤ 53) && isDigitChar m2
  | _ => false

/-- `FIELD_CONFIG.preferredTime.validate`. -/
def validatePreferredTime (v : String) : VRes :=
  if v = "" then .invalid "Time is required"
  else if timeFormatOk v.data then .valid
  else .invalid "Invalid time format"

/-- `validateField(fieldName, value)`: dispatch to the field's
validator; a field without a config entry or validator (notes) is always
valid. -/
def validateField (legacy : String → Option Int) (today : Int)
    (field : FieldName) (v : String) : VRes :=
  match field with
  | .petOwnerName => validatePetOwnerName v
  | .petName => validatePetName v
  | .phoneNumber => validatePhoneNumber v
  | .preferredDate => validatePreferredDate legacy today v
  | .preferredTime => validatePreferredTime v
  | .notes => .valid

/-- `FIELD_CONFIG[field].prompt`. -/
def promptOf (field : FieldName) : String :=
  match field with
  | .petOwnerName => "What's your name?"
  | .petName => "What's your pet's name?"
  | .phoneNumber => "What's the best phone number to reach you?"
  | .preferredDate => "What date works best for you? (e.g., January 20, tomorrow, next Monday)"
  | .preferredTime => "What time would you prefer? (e.g., 10:00 AM, afternoon, 2pm)"
  | .notes => "Could you please provide the missing information?"

/-- `FIELD_CONFIG[field].errorPrompt`. -/
def errorPromptOf (field : FieldName) : String :=
  match field with
  | .petOwnerName => "I didn't quite catch your name. Could you please provide your full name?"
  | .petName => "I need your pet's name to continue. What should I call your pet?"
  | .phoneNumber => "I need a valid phone number. Please provide your contact number (e.g., 555-123-4567)."
  | .preferredDate => "I couldn't understand that date. Please specify a date like 'January 20' or 'next Monday'."
  | .preferredTime => "I need a valid time. Please specify like '10:00 AM' or 'afternoon'."
  | .notes => "Could you please provide the missing information?"

/-- `generatePrompt(fieldName, isRetry)`: a field with no config entry
gets the generic fallback; `notes` has no config entry in the source. -/
def generatePrompt (field : FieldName) (isRetry : Bool) : String :=
  match field with
  | .notes => "Could you please provide the missing information?"
  | f => if isRetry then errorPromptOf f else promptOf f

/-! ## Extraction patterns -/

/-- The two-word name capture `(\w+(?:\s+\w+)?)`. -/
def nameCapture : Re :=
  .group 1 (.seq (.reps isWordChar 1 none)
    (.opt (.seq (.reps isWsChar 1 none) (.reps isWordChar 1 none))))

/-- `FIELD_CONFIG.petOwnerName.extractPatterns`, in order. -/
def ownerPatterns : List Re :=
  [.seq (ciLit "my name is ") nameCapture,
   .seq (ciLit "i'm ") nameCapture,
   .seq (ciLit "i am ") nameCapture,
   .seq (ciLit "call me ") (.group 1 (.reps isWordChar 1 none)),
   .seq (ciLit "this is ") nameCapture]

/-- `(?:pet|dog|cat|bird|rabbit)`. -/
def animalAlt : Re :=
  altChain [ciLit "pet", ciLit "dog", ciLit "cat", ciLit "bird", ciLit "rabbit"]

/-- `FIELD_CONFIG.petName.extractPatterns`, in order. -/
def petPatterns : List Re :=
  [.seq (ciLit "my ") (.seq animalAlt (.seq (ciLit "'s name is ") (.group 1 (.reps isWordChar 1 none)))),
   .seq animalAlt (.seq (ciLit " ") (.seq (.alt (ciLit "is called") (ciLit "named"))
     (.seq (ciLit " ") (.group 1 (.reps isWordChar 1 none))))),
   .seq (.alt (ciLit "his") (.alt (ciLit "her") (ciLit "its")))
     (.seq (ciLit " name is ") (.group 1 (.reps isWordChar 1 none))),
   .seq (ciLit "called ") (.group 1 (.reps isWordChar 1 none)),
   .seq (ciLit "named ") (.group 1 (.reps isWordChar 1 none))]

/-- `FIELD_CONFIG.phoneNumber.extractPatterns`, in order (these have no
`/i` flag; they are case-independent anyway). -/
def phonePatterns : List Re :=
  [.group 1 (.seq (.opt (.lit ['+'])) (.seq (.opt (.lit ['1'])) (.seq (.opt (.cls isPhoneSep))
     (.seq (.opt (.lit ['('])) (.seq (.reps isDigitChar 3 (some 3)) (.seq (.opt (.lit [')']))
       (.seq (.opt (.cls isPhoneSep)) (.seq (.reps isDigitChar 3 (some 3))
         (.seq (.opt (.cls isPhoneSep)) (.reps isDigitChar 4 (some 4))))))))))),
   .group 1 (.seq (.reps isDigitChar 3 (some 3)) (.seq (.opt (.cls isPhoneSep))
     (.seq (.reps isDigitChar 3 (some 3)) (.seq (.opt (.cls isPhoneSep))
       (.reps isDigitChar 4 (some 4)))))),
   .group 1 (.reps isDigitChar 10 (some 15))]

/-- First pattern whose group 1 captures non-empty text wins
(`if (match && match[1]) { ... break; }`); the capture is trimmed. -/
def firstCapture (pats : List Re) (l : List Char) : Option String :=
  match pats with
  | [] => none
  | p :: rest =>
    match searchAux p l with
    | some caps =>
      match capL 1 caps with
      | some cs => if cs = [] then firstCapture rest l else some (String.mk (trimL cs))
      | none => firstCapture rest l
    | none => firstCapture rest l

/-- `extractWithPatterns(message)`: regex extraction for the textual
fields, then the date and time parsers (whose results overwrite). -/
def extractWithPatterns (legacy : String → Option Int) (today : Int)
    (message : String) : Fields :=
  fun field =>
    match field with
    | .petOwnerName => firstCapture ownerPatterns message.data
    | .petName => firstCapture petPatterns message.data
    | .phoneNumber => firstCapture phonePatterns message.data
    | .preferredDate => parseNaturalDate legacy today message
    | .preferredTime => parseNaturalTime message
    | .notes => none

/-! ## Intent classification -/

/-- Keyword match at the current position with `\b` boundaries on both
sides (every keyword begins and ends with a word character). -/
def matchKwAt (kw : List Char) (l : List Char) : Bool :=
  match dropLit kw l with
  | some r =>
    match r with
    | [] => true
    | c :: _ => !isWordChar c
  | none => false

/-- Scan for any keyword at any position, tracking whether the previous
character is a word character (the left `\b`). -/
def wbScan (kws : List (List Char)) (prevWord : Bool) : List Char → Bool
  | [] => false
  | c :: t =>
    (!prevWord && kws.any (fun kw => matchKwAt kw (c :: t))) || wbScan kws (isWordChar c) t

/-- `\b(kw1|...|kwN)\b.test(lowerMessage)`. -/
def wbTest (kws : List (List Char)) (l : List Char) : Bool :=
  wbScan kws false l

/-- `/\b(cancel|stop|nevermind|never mind|forget it|don't want)\b/i`
applied to the lower-cased message. -/
def wantsToCancelOf (lowerMessage : List Char) : Bool :=
  wbTest ["cancel".data, "stop".data, "nevermind".data, "never mind".data,
    "forget it".data, "don't want".data] lowerMessage

/-- `/\b(restart|start over|begin again|reset)\b/i` applied to the
lower-cased message. -/
def wantsToRestartOf (lowerMessage : List Char) : Bool :=
  wbTest ["restart".data, "start over".data, "begin again".data, "reset".data] lowerMessage

/-- `/^(yes|yeah|yep|correct|right|confirm|that's right|looks good|perfect)/i`. -/
def yesTest (lowerMessage : List Char) : Bool :=
  ["yes".data, "yeah".data, "yep".data, "correct".data, "right".data, "confirm".data,
    "that's right".data, "looks good".data, "perfect".data].any
    (fun p => startsWithL p lowerMessage)

/-- `/^(no|nope|wrong|incorrect|change|fix|not right)/i`. -/
def noTest (lowerMessage : List Char) : Bool :=
  ["no".data, "nope".data, "wrong".data, "incorrect".data, "change".data, "fix".data,
    "not right".data].any (fun p => startsWithL p lowerMessage)

/-- The confirmation signal: `'yes'`, `'no'`, or `null`. -/
inductive ConfirmSig where
  | yes | no
deriving DecidableEq

/-- Result of `analyzeMessage`: extracted fields plus intent flags. -/
structure Analyzed where
  fields : Fields
  wantsToCancel : Bool
  wantsToRestart : Bool
  confirmation : Option ConfirmSig

/-- `analyzeMessage(message, ...)` on its regex-only fallback path (the
generative-AI adapter is an external collaborator modelled as absent:
`geminiService.isAvailable()` is false). -/
def analyzeMessage (legacy : String → Option Int) (today : Int)
    (message : String) : Analyzed :=
  let lowerMessage := lowerL message.data
  { fields := extractWithPatterns legacy today message
    wantsToCancel := wantsToCancelOf lowerMessage
    wantsToRestart := wantsToRestartOf lowerMessage
    confirmation :=
      if yesTest lowerMessage then some .yes
      else if noTest lowerMessage then some .no
      else none }

/-! ## Booking state machine -/

/-- The per-session booking state record. -/
structure BookingState where
  isActive : Bool
  collectedFields : Fields
  currentField : Option FieldName
  isComplete : Bool
  isConfirming : Bool
  errorField : Option FieldName
  lastError : Option String
  attempts : FieldName → Nat

/-- `createBookingState(existingData)`: a fresh active state whose
`collectedFields` is a copy of the given pre-existing data. -/
def createBookingState (existingData : Fields) : BookingState :=
  { isActive := true
    collectedFields := fun f => existingData f
    currentField := none
    isComplete := false
    isConfirming := false
    errorField := none
    lastError := none
    attempts := fun _ => 0 }

/-- Is a field's entry missing for collection purposes
(`!value || value.trim() === ''`)? -/
def fieldMissing (fields : Fields) (f : FieldName) : Bool :=
  match fields f with
  | none => true
  | some v => trimL v.data = []

/-- `getMissingFields(collectedFields)`. -/
def getMissingFields (fields : Fields) : List FieldName :=
  requiredFields.filter (fieldMissing fields)

/-- `isComplete(collectedFields)`: no missing required field. -/
def isCompleteF (fields : Fields) : Bool :=
  (getMissingFields fields).length = 0

/-- `getNextField(collectedFields)`: the first missing required field
with its prompt. -/
def getNextField (fields : Fields) : Option (FieldName × String) :=
  match getMissingFields fields with
  | [] => none
  | f :: _ => some (f, promptOf f)

/-- `getAcknowledgment(fields)`: a field-specific phrase for exactly one
newly filled field, a generic phrase for two or more. -/
def getAcknowledgment (fields : List FieldName) : String :=
  match fields with
  | [] => ""
  | f :: rest =>
    if rest.length + 1 ≥ 2 then "Thanks for that information!"
    else
      match f with
      | .petOwnerName => "Got it, thanks!"
      | .petName => "Great name!"
      | .phoneNumber => "Perfect, I have your number."
      | .preferredDate => "That date works!"
      | .preferredTime => "Good time choice!"
      | .notes => "Got it!"

/-- Render a possibly missing field in a template literal: JavaScript
prints `undefined` for an absent key. -/
def renderField (fields : Fields) (f : FieldName) : String :=
  match fields f with
  | some v => v
  | none => "undefined"

/-- `generateConfirmationMessage(collectedFields)`. -/
def generateConfirmationMessage (legacy : String → Option Int) (fields : Fields) : String :=
  let dateDisplay :=
    match fields .preferredDate with
    | some v => if v ≠ "" then formatDateForDisplay legacy v else v
    | none => "undefined"
  let timeDisplay :=
    match fields .preferredTime with
    | some v => if v ≠ "" then formatTimeForDisplay v else v
    | none => "undefined"
  "Great! Let me confirm your appointment details:\n\n📋 **Your Information:**\n• **Name:** "
    ++ renderField fields .petOwnerName
    ++ "\n• **Pet's Name:** " ++ renderField fields .petName
    ++ "\n• **Phone:** " ++ renderField fields .phoneNumber
    ++ "\n• **Date:** " ++ dateDisplay
    ++ "\n• **Time:** " ++ timeDisplay
    ++ "\n\nIs this information correct? (Yes/No)"

/-- The action component of a `processMessage` result. -/
inductive FlowAction where
  | collecting | confirming | confirmed | cancelled | restarted | edit_requested
deriving DecidableEq

/-- Result of one `processMessage` turn. -/
structure ProcessResult where
  state : BookingState
  response : Option String
  action : FlowAction

/-- Accumulator of the field-update loop of `processMessage`. -/
structure UpdateAcc where
  updatedFields : Fields
  hasNewData : Bool
  invalidField : Option FieldName
  validationError : Option String

/-- One iteration of `for (const field of REQUIRED_FIELDS)`: a truthy
extracted value is validated, then stored on success or recorded as the
invalid field on failure. -/
def updateStep (legacy : String → Option Int) (today : Int) (ex : Fields)
    (acc : UpdateAcc) (field : FieldName) : UpdateAcc :=
  match ex field with
  | some v =>
    if v ≠ "" then
      match validateField legacy today field v with
      | .valid =>
        { acc with updatedFields := setField acc.updatedFields field v, hasNewData := true }
      | .invalid e =>
        { acc with invalidField := some field, validationError := some e }
    else acc
  | none => acc

/-- The fixed cancellation acknowledgment. -/
def cancelResponse : String :=
  "No problem! I've cancelled the appointment booking. Is there anything else I can help you with?"

/-- The fixed restart response. -/
def restartResponse : String :=
  "Let's start fresh! I'll help you book a new appointment. What's your name?"

/-- The edit-request response. -/
def editResponse : String :=
  "Which detail would you like to change? (name, pet name, phone, date, or time)"

/-- `processMessage(message, bookingState, ...)`: one turn of the
booking flow (on the regex-only extraction path; see `analyzeMessage`). -/
def processMessage (legacy : String → Option Int) (today : Int)
    (message : String) (bookingState : BookingState) : ProcessResult :=
  let extracted := analyzeMessage legacy today message
  if extracted.wantsToCancel then
    { state := { bookingState with isActive := false }
      response := some cancelResponse
      action := .cancelled }
  else if extracted.wantsToRestart then
    { state := createBookingState emptyFields
      response := some restartResponse
      action := .restarted }
  else if bookingState.isConfirming ∧ extracted.confirmation.isSome then
    if extracted.confirmation = some .yes then
      { state := { bookingState with isComplete := true }
        response := none  -- the caller creates the appointment
        action := .confirmed }
    else
      { state := { bookingState with isConfirming := false }
        response := some editResponse
        action := .edit_requested }
  else
    let acc := requiredFields.foldl (updateStep legacy today extracted.fields)
      { updatedFields := bookingState.collectedFields
        hasNewData := false
        invalidField := none
        validationError := none }
    let complete := isCompleteF acc.updatedFields
    let base := { bookingState with collectedFields := acc.updatedFields }
    if complete then
      { state := { base with isConfirming := true }
        response := some (generateConfirmationMessage legacy acc.updatedFields)
        action := .confirming }
    else
      match acc.invalidField with
      | some f =>
        { state := { base with errorField := some f, lastError := acc.validationError }
          response := some (generatePrompt f true)
          action := .collecting }
      | none =>
        match getNextField acc.updatedFields with
        | some nf =>
          let ackFields := requiredFields.filter
            (fun f => match extracted.fields f with
              | some v => v ≠ ""
              | none => false)
          let resp :=
            if acc.hasNewData then getAcknowledgment ackFields ++ "\n\n" ++ nf.2
            else nf.2
          { state := { base with currentField := some nf.1 }
            response := some resp
            action := .collecting }
        | none =>
          -- Unreachable when `complete` is false; in the source
          -- `response` would remain undefined here.
          { state := base, response := none, action := .collecting }

/-! ## Claim-level definitions -/

/-- A value passed its field's validator (under the environment of the
turn that validated it: the generic date parser behaviour and the current
date). -/
def passedValidator (f : FieldName) (v : String) : Prop :=
  ∃ legacy today, validateField legacy today f v = VRes.valid

/-- Every value present in a field map passed its field's validator. -/
def FieldsValidated (fields : Fields) : Prop :=
  ∀ f v, fields f = some v → passedValidator f v

/-- Reachable booking states as claim C1 delimits them: created by
`createBookingState`, possibly with pre-existing data (the controller
pre-populates from conversation context and raw extraction results), and
transformed by any sequence of `processMessage` turns. -/
inductive ReachClaim : BookingState → Prop
  | init (d : Fields) : ReachClaim (createBookingState d)
  | step (legacy : String → Option Int) (today : Int) (msg : String) (s : BookingState) :
      ReachClaim s → ReachClaim (processMessage legacy today msg s).state

/-- Reachable booking states whose creation data already passed the
validators (in particular, created empty). -/
inductive ReachValid : BookingState → Prop
  | init (d : Fields) (hd : FieldsValidated d) : ReachValid (createBookingState d)
  | step (legacy : String → Option Int) (today : Int) (msg : String) (s : BookingState) :
      ReachValid s → ReachValid (processMessage legacy today msg s).state

/-- A legacy date parser that accepts nothing (the natural instantiation
for inputs the host parser rejects). -/
def legacyNone : String → Option Int := fun _ => none

/-- A legacy date parser that reads the bare digits `"123"` as the year
123 (the other candidate host behaviour for that input). -/
def legacy123 : String → Option Int :=
  fun s => if s = "123" then some (daysFromCivil 123 1 1) else none

/-- A concrete current date: 2026-10-11 (a Sunday). -/
def demoToday : Int := daysFromCivil 2026 10 11

/-- A concrete mid-collection state: owner and pet name collected, phone,
date and time missing. -/
def demoState : BookingState :=
  createBookingState (fun f =>
    if f = FieldName.petOwnerName then some "John"
    else if f = FieldName.petName then some "Buddy"
    else none)

/-- Pre-existing data with an owner name that fails its validator. -/
def badSeedData : Fields :=
  fun f => if f = FieldName.petOwnerName then some "X" else none

/-! ## Helper lemmas -/

/-- The field-update fold never removes a present key. -/
theorem foldl_updateStep_keeps (legacy : String → Option Int) (today : Int) (ex : Fields)
    (l : List FieldName) :
    ∀ (acc : UpdateAcc) (f : FieldName) (v : String),
      acc.updatedFields f = some v →
      ∃ w, ((l.foldl (updateStep legacy today ex) acc).updatedFields) f = some w := by
  induction l with
  | nil => exact fun acc f v h => ⟨v, h⟩
  | cons a t ih =>
    intro acc f v h
    simp only [List.foldl_cons]
    have hstep : ∃ w, (updateStep legacy today ex acc a).updatedFields f = some w := by
      unfold updateStep
      cases hx : ex a with
      | none => exact ⟨v, h⟩
      | some u =>
        by_cases hu : u ≠ ""
        · simp only [if_pos hu]
          cases hval : validateField legacy today a u with
          | valid =>
            by_cases hfa : f = a
            · subst hfa; exact ⟨u, by simp [setField]⟩
            · exact ⟨v, by simpa [setField, hfa] using h⟩
          | invalid e => exact ⟨v, h⟩
        · simp only [if_neg hu]
          exact ⟨v, h⟩
    obtain ⟨w, hw⟩ := hstep
    exact ih _ f w hw

/-- The field-update fold writes only values that passed their
validator. -/
theorem foldl_updateStep_validated (legacy : String → Option Int) (today : Int) (ex : Fields)
    (l : List FieldName) :
    ∀ acc : UpdateAcc, FieldsValidated acc.updatedFields →
      FieldsValidated ((l.foldl (updateStep legacy today ex) acc).updatedFields) := by
  induction l with
  | nil => exact fun acc h => h
  | cons a t ih =>
    intro acc h
    simp only [List.foldl_cons]
    apply ih
    unfold updateStep
    cases hx : ex a with
    | none => exact h
    | some u =>
      by_cases hu : u ≠ ""
      · simp only [if_pos hu]
        cases hval : validateField legacy today a u with
        | valid =>
          intro f v hv
          by_cases hfa : f = a
          · subst hfa
            simp [setField] at hv
            exact hv ▸ ⟨legacy, today, hval⟩
          · simp [setField, hfa] at hv
            exact h f v hv
        | invalid e => exact h
      · simp only [if_neg hu]
        exact h

/-- `getNextField` is `none` exactly when collection is complete. -/
theorem getNextField_none_iff (fields : Fields) :
    getNextField fields = none ↔ isCompleteF fields = true := by
  unfold getNextField isCompleteF
  cases h : getMissingFields fields <;> simp [h]

/-- One `processMessage` turn preserves validatedness of the collected
fields. -/
theorem processMessage_preserves_validated (legacy : String → Option Int) (today : Int)
    (msg : String) (s : BookingState) (h : FieldsValidated s.collectedFields) :
    FieldsValidated (processMessage legacy today msg s).state.collectedFields := by
  unfold processMessage
  dsimp only
  split_ifs with h1 h2 h3 h4
  · exact h
  · intro f v hv
    simp [createBookingState, emptyFields] at hv
  · exact h
  · exact h
  all_goals
    repeat' split
    all_goals exact foldl_updateStep_validated legacy today _ _ _ h

/-- Fuel irrelevance for `natToCharsAux`. -/
theorem natToCharsAux_fuel (f g n : Nat) (hf : n < f) (hg : n < g) :
    natToCharsAux f n = natToCharsAux g n := by
  induction f using Nat.strong_induction_on generalizing g n with
  | _ f ih =>
    match f, g with
    | f + 1, g + 1 =>
      simp only [natToCharsAux]
      split
      · rfl
      · have h10 : n / 10 < f := by omega
        have h10g : n / 10 < g := by omega
        rw [ih f (by omega) g (n / 10) h10 h10g]

/-- The recursion equation of `natToChars`. -/
theorem natToChars_eq (n : Nat) :
    natToChars n = if n < 10 then [digitChar n] else natToChars (n / 10) ++ [digitChar (n % 10)] := by
  unfold natToChars
  rw [show natToCharsAux (n + 1) n =
    if n < 10 then [digitChar n] else natToCharsAux n (n / 10) ++ [digitChar (n % 10)] from rfl]
  split
  · rfl
  · rw [natToCharsAux_fuel n (n / 10 + 1) (n / 10) (by omega) (by omega)]

/-- The year-of-era window property of `yoeOfDoe`: within an era, the
located March-based year starts at or before the day and ends within 365
days, and the day precedes the next year's start except on the era's
final leap day. -/
theorem yoeOfDoe_window (doe : Int) (h0 : 0 ≤ doe) (h1 : doe ≤ 146096) :
    0 ≤ yoeOfDoe doe ∧ yoeOfDoe doe ≤ 399 ∧
    eraYearStart (yoeOfDoe doe) ≤ doe ∧ doe - eraYearStart (yoeOfDoe doe) ≤ 365 ∧
    (doe < eraYearStart (yoeOfDoe doe + 1) ∨ (yoeOfDoe doe = 399 ∧ doe = 146096)) := by
  unfold yoeOfDoe eraYearStart
  dsimp only
  split_ifs <;> omega

/-- `daysFromCivil` shifts by a whole era when the year shifts by 400. -/
theorem daysFromCivil_shift (era y m d : Int) :
    daysFromCivil (era * 400 + y) m d = era * 146097 + daysFromCivil y m d := by
  unfold daysFromCivil
  dsimp only
  split_ifs <;> omega

/-- `daysFromCivil` inverts `civilOfDoe` on a day-of-era. -/
theorem civilOfDoe_inverse (doe : Int) (h0 : 0 ≤ doe) (h1 : doe ≤ 146096) :
    daysFromCivil (civilOfDoe doe).1 (civilOfDoe doe).2.1 (civilOfDoe doe).2.2 =
      doe - 719468 := by
  obtain ⟨w0, w1, w2, w3, _⟩ := yoeOfDoe_window doe h0 h1
  unfold civilOfDoe daysFromCivil
  unfold eraYearStart at w2 w3 ⊢
  dsimp only
  split_ifs <;>
    (try simp only [Int.add_sub_cancel, Int.sub_add_cancel]) <;>
    (have h400 : yoeOfDoe doe / 400 = 0 := by omega
     simp only [h400, zero_mul, mul_zero, sub_zero]
     omega)

/-- Month and day bounds of `civilOfDoe`. -/
theorem civilOfDoe_m_d (doe : Int) (h0 : 0 ≤ doe) (h1 : doe ≤ 146096) :
    1 ≤ (civilOfDoe doe).2.1 ∧ (civilOfDoe doe).2.1 ≤ 12 ∧
    1 ≤ (civilOfDoe doe).2.2 ∧ (civilOfDoe doe).2.2 ≤ 31 := by
  obtain ⟨w0, w1, w2, w3, _⟩ := yoeOfDoe_window doe h0 h1
  unfold civilOfDoe
  unfold eraYearStart at w2 w3 ⊢
  dsimp only
  split_ifs <;> omega

/-- A 366th day of a located March-based year only happens before a leap
year (or on the era's final leap day). -/
theorem doy365_leap (doe : Int) (h0 : 0 ≤ doe) (h1 : doe ≤ 146096) (era : Int)
    (hd : doe - eraYearStart (yoeOfDoe doe) = 365) :
    ((era * 400 + (yoeOfDoe doe + 1)) % 4 = 0 ∧ (era * 400 + (yoeOfDoe doe + 1)) % 100 ≠ 0) ∨
    (era * 400 + (yoeOfDoe doe + 1)) % 400 = 0 := by
  obtain ⟨w0, w1, w2, w3, w4⟩ := yoeOfDoe_window doe h0 h1
  unfold eraYearStart at hd w2 w3 w4
  have key : ((yoeOfDoe doe + 1) % 4 = 0 ∧ (yoeOfDoe doe + 1) % 100 ≠ 0) ∨
      yoeOfDoe doe = 399 := by
    rcases w4 with w4l | ⟨w4a, _⟩
    · clear w0 w1 w2 w3 h0 h1
      exact Or.inl (by omega)
    · exact Or.inr w4a
  rcases key with ⟨k4, k100⟩ | k399
  · exact Or.inl ⟨by omega, by omega⟩
  · exact Or.inr (by omega)

/-- The day of `civilOfDoe` fits its month, leap years included. -/
theorem civilOfDoe_d_le (doe : Int) (h0 : 0 ≤ doe) (h1 : doe ≤ 146096) (era : Int) :
    (civilOfDoe doe).2.2 ≤ daysInMonth (era * 400 + (civilOfDoe doe).1) (civilOfDoe doe).2.1 := by
  obtain ⟨w0, w1, w2, w3, w4⟩ := yoeOfDoe_window doe h0 h1
  have hleap := doy365_leap doe h0 h1 era
  unfold civilOfDoe daysInMonth isLeapYear
  unfold eraYearStart at w2 w3 w4 hleap ⊢
  dsimp only
  split_ifs <;>
    simp only [Bool.or_eq_true, Bool.and_eq_true, decide_eq_true_eq, Bool.not_eq_true,
      Bool.not_eq_true', decide_eq_false_iff_not, ne_eq, not_not, not_and, not_or] at * <;>
    omega

/-- Decomposing and recomposing a day number is the identity. -/
theorem civilFromDays_inverse (z : Int) :
    daysFromCivil (civilFromDays z).1 (civilFromDays z).2.1 (civilFromDays z).2.2 = z := by
  unfold civilFromDays
  dsimp only
  have h0 : 0 ≤ (z + 719468) - (z + 719468) / 146097 * 146097 := by omega
  have h1 : (z + 719468) - (z + 719468) / 146097 * 146097 ≤ 146096 := by omega
  rw [daysFromCivil_shift, civilOfDoe_inverse _ h0 h1]
  omega

/-- The civil decomposition of a day number is a valid calendar date. -/
theorem civilFromDays_bounds (z : Int) :
    1 ≤ (civilFromDays z).2.1 ∧ (civilFromDays z).2.1 ≤ 12 ∧
    1 ≤ (civilFromDays z).2.2 ∧
    (civilFromDays z).2.2 ≤ daysInMonth (civilFromDays z).1 (civilFromDays z).2.1 ∧
    (civilFromDays z).2.2 ≤ 31 := by
  unfold civilFromDays
  dsimp only
  have h0 : 0 ≤ (z + 719468) - (z + 719468) / 146097 * 146097 := by omega
  have h1 : (z + 719468) - (z + 719468) / 146097 * 146097 ≤ 146096 := by omega
  obtain ⟨a, b, c, d31⟩ := civilOfDoe_m_d _ h0 h1
  exact ⟨a, b, c, civilOfDoe_d_le _ h0 h1 _, d31⟩

/-- `digitChar` always yields a digit character. -/
theorem isDigit_digitChar (k : Nat) : isDigitChar (digitChar k) = true := by
  unfold digitChar
  split <;> decide

/-- Digits are unchanged by lower-casing. -/
theorem toLower_digitChar (k : Nat) : toLowerChar (digitChar k) = digitChar k := by
  unfold digitChar
  split <;> decide

/-- Digits are not whitespace. -/
theorem ws_digitChar (k : Nat) : isWsChar (digitChar k) = false := by
  unfold digitChar
  split <;> decide

/-- `digitVal` recovers a bounded digit. -/
theorem digitVal_digitChar (k : Nat) (h : k ≤ 9) : digitVal (digitChar k) = k := by
  interval_cases k <;> decide

/-- Every character of a decimal rendering is a digit. -/
theorem natToChars_all_digits (n : Nat) : ∀ c ∈ natToChars n, isDigitChar c = true := by
  induction n using Nat.strong_induction_on with
  | _ n ih =>
    rw [natToChars_eq]
    split
    · intro c hc
      rw [List.mem_singleton] at hc
      rw [hc]
      exact isDigit_digitChar n
    · intro c hc
      rw [List.mem_append, List.mem_singleton] at hc
      rcases hc with hc | hc
      · exact ih (n / 10) (by omega) c hc
      · rw [hc]
        exact isDigit_digitChar (n % 10)

/-- A decimal rendering is never empty. -/
theorem natToChars_ne_nil (n : Nat) : natToChars n ≠ [] := by
  rw [natToChars_eq]
  split <;> simp

/-- The four-digit decomposition of a year rendering. -/
theorem natToChars_four (n : Nat) (h1 : 1000 ≤ n) (h2 : n ≤ 9999) :
    natToChars n = [digitChar (n / 1000), digitChar (n / 100 % 10),
      digitChar (n / 10 % 10), digitChar (n % 10)] := by
  rw [natToChars_eq, if_neg (by omega), natToChars_eq, if_neg (by omega),
    natToChars_eq, if_neg (by omega), natToChars_eq, if_pos (by omega)]
  have e1 : n / 10 / 10 = n / 100 := by omega
  rw [e1]
  have e3 : n / 100 / 10 = n / 1000 := by omega
  rw [e3]
  rfl

/-- The rendering of a one-digit number. -/
theorem natToChars_one (n : Nat) (h : n ≤ 9) : natToChars n = [digitChar n] := by
  rw [natToChars_eq, if_pos (by omega)]

/-- The two-digit decomposition of a rendering. -/
theorem natToChars_two (n : Nat) (h1 : 10 ≤ n) (h2 : n ≤ 99) :
    natToChars n = [digitChar (n / 10), digitChar (n % 10)] := by
  rw [natToChars_eq, if_neg (by omega), natToChars_eq, if_pos (by omega)]
  rfl

/-- `pad2` of a single-digit number. -/
theorem pad2_small (i : Int) (h0 : 0 ≤ i) (h9 : i ≤ 9) :
    (pad2 i).data = ['0', digitChar i.toNat] := by
  unfold pad2 intToChars
  rw [if_pos ⟨h0, by omega⟩]
  rw [if_neg (by omega), natToChars_one i.toNat (by omega)]

/-- `pad2` of a two-digit number. -/
theorem pad2_big (i : Int) (h0 : 10 ≤ i) (h9 : i ≤ 99) :
    (pad2 i).data = [digitChar (i.toNat / 10), digitChar (i.toNat % 10)] := by
  unfold pad2 intToStr intToChars
  rw [if_neg (by omega), if_neg (by omega), natToChars_two i.toNat (by omega) (by omega)]

/-- `charsToNat` recovers a four-digit value. -/
theorem charsToNat_four (a b c d : Nat) (ha : a ≤ 9) (hb : b ≤ 9) (hc : c ≤ 9) (hd : d ≤ 9) :
    charsToNat [digitChar a, digitChar b, digitChar c, digitChar d] =
      ((a * 10 + b) * 10 + c) * 10 + d := by
  unfold charsToNat
  simp only [List.foldl_cons, List.foldl_nil, digitVal_digitChar a ha,
    digitVal_digitChar b hb, digitVal_digitChar c hc, digitVal_digitChar d hd]
  ring

/-- `charsToNat` recovers a two-digit value. -/
theorem charsToNat_two (a b : Nat) (ha : a ≤ 9) (hb : b ≤ 9) :
    charsToNat [digitChar a, digitChar b] = a * 10 + b := by
  unfold charsToNat
  simp only [List.foldl_cons, List.foldl_nil, digitVal_digitChar a ha, digitVal_digitChar b hb]
  ring

/-- String concatenation concatenates the underlying character lists. -/
theorem dataAppend (s t : String) : (s ++ t).data = s.data ++ t.data := rfl

/-- A formatted date is never the empty string (it contains the
hyphens). -/
theorem formatDate_ne_empty (n : Int) : ¬ (formatDate n = "") := by
  intro h
  have hd : (formatDate n).data = [] := by rw [h]
  unfold formatDate at hd
  simp [dataAppend] at hd

/-- `pad2` of a value in `1..31` is two digit characters recovering the
value. -/
theorem pad2_chars (i : Int) (h0 : 1 ≤ i) (h9 : i ≤ 31) :
    ∃ a b : Nat, a ≤ 9 ∧ b ≤ 9 ∧ (pad2 i).data = [digitChar a, digitChar b] ∧
      (a : Int) * 10 + b = i := by
  by_cases hc : i ≤ 9
  · refine ⟨0, i.toNat, by omega, by omega, ?_, by omega⟩
    rw [pad2_small i (by omega) hc]
    rfl
  · exact ⟨i.toNat / 10, i.toNat % 10, by omega, by omega,
      pad2_big i (by omega) (by omega), by omega⟩

/-- The ISO parser inverts `formatDate` for four-digit years. -/
theorem isoParse_formatDate (n : Int) (h1 : 1000 ≤ jsGetFullYear n)
    (h2 : jsGetFullYear n ≤ 9999) :
    isoParse (formatDate n) = some n := by
  obtain ⟨b1, b2, b3, b4, b5⟩ := civilFromDays_bounds n
  unfold jsGetFullYear at h1 h2
  obtain ⟨ma, mb, hma, hmb, hmdata, hmval⟩ :=
    pad2_chars (jsGetMonth n + 1) (by unfold jsGetMonth; omega) (by unfold jsGetMonth; omega)
  obtain ⟨da, db, hda, hdb, hddata, hdval⟩ :=
    pad2_chars (jsGetDate n) (by unfold jsGetDate; omega) (by unfold jsGetDate; omega)
  have hydata : (intToStr (jsGetFullYear n)).data =
      [digitChar ((jsGetFullYear n).toNat / 1000), digitChar ((jsGetFullYear n).toNat / 100 % 10),
        digitChar ((jsGetFullYear n).toNat / 10 % 10), digitChar ((jsGetFullYear n).toNat % 10)] := by
    unfold intToStr intToChars jsGetFullYear
    rw [if_neg (by omega)]
    exact natToChars_four _ (by omega) (by omega)
  have hfd : (formatDate n).data =
      [digitChar ((jsGetFullYear n).toNat / 1000), digitChar ((jsGetFullYear n).toNat / 100 % 10),
        digitChar ((jsGetFullYear n).toNat / 10 % 10), digitChar ((jsGetFullYear n).toNat % 10),
        '-', digitChar ma, digitChar mb, '-', digitChar da, digitChar db] := by
    unfold formatDate
    simp only [dataAppend, hydata, hmdata, hddata]
    rfl
  unfold isoParse
  rw [hfd]
  dsimp only
  rw [if_pos ⟨rfl, rfl, by simp [isDigit_digitChar]⟩]
  have hyval : (Int.ofNat (charsToNat
      [digitChar ((jsGetFullYear n).toNat / 1000), digitChar ((jsGetFullYear n).toNat / 100 % 10),
        digitChar ((jsGetFullYear n).toNat / 10 % 10), digitChar ((jsGetFullYear n).toNat % 10)])) =
      (civilFromDays n).1 := by
    rw [charsToNat_four _ _ _ _ (by unfold jsGetFullYear; omega) (by unfold jsGetFullYear; omega)
      (by unfold jsGetFullYear; omega) (by unfold jsGetFullYear; omega)]
    unfold jsGetFullYear
    simp only [Int.ofNat_eq_coe]
    omega
  have hmval2 : (Int.ofNat (charsToNat [digitChar ma, digitChar mb])) = (civilFromDays n).2.1 := by
    rw [charsToNat_two _ _ hma hmb]
    unfold jsGetMonth at hmval
    simp only [Int.ofNat_eq_coe]
    omega
  have hdval2 : (Int.ofNat (charsToNat [digitChar da, digitChar db])) = (civilFromDays n).2.2 := by
    rw [charsToNat_two _ _ hda hdb]
    unfold jsGetDate at hdval
    simp only [Int.ofNat_eq_coe]
    omega
  rw [hyval, hmval2, hdval2, if_pos ⟨b1, b2, b3, b4⟩, civilFromDays_inverse]

/-- On the C2 utterance every natural-language branch misses, so the date
extraction is decided by the host's legacy parser (a real host rejects
this sentence). -/
theorem c2_date_eq (legacy : String → Option Int) (today : Int) :
    parseNaturalDate legacy today "I'm John and my dog is Buddy" =
      (match legacy "I'm John and my dog is Buddy" with
       | some n => some (formatDate n)
       | none => none) := by
  have h1 : parseNaturalDate legacy today "I'm John and my dog is Buddy" =
      genericDateTail legacy today "I'm John and my dog is Buddy" := rfl
  rw [h1]
  unfold genericDateTail jsParseDate
  rw [show isoParse "I'm John and my dog is Buddy" = none from rfl]
  cases legacy "I'm John and my dog is Buddy" with
  | some n => rfl
  | none => rfl

/-- On the utterance "123" every natural-language branch misses, so the
date extraction is decided by the host's legacy parser. -/
theorem c6_date_eq (legacy : String → Option Int) (today : Int) :
    parseNaturalDate legacy today "123" =
      (match legacy "123" with
       | some n => some (formatDate n)
       | none => none) := by
  have h1 : parseNaturalDate legacy today "123" = genericDateTail legacy today "123" := rfl
  rw [h1]
  unfold genericDateTail jsParseDate
  rw [show isoParse "123" = none from rfl]
  cases legacy "123" with
  | some n => rfl
  | none => rfl

/-- An acknowledgment-plus-phone-prompt response is never the phone
retry prompt (they end differently). -/
theorem resp_ne_phone_retry_opt (a : String) :
    some (a ++ "\n\n" ++ promptOf FieldName.phoneNumber) ≠
      some (errorPromptOf FieldName.phoneNumber) := by
  intro h0
  have h : a ++ "\n\n" ++ promptOf FieldName.phoneNumber =
      errorPromptOf FieldName.phoneNumber := Option.some.inj h0
  have h2 := congrArg (fun s => s.data.reverse.head?) h
  simp only [dataAppend, List.reverse_append] at h2
  rw [show (promptOf FieldName.phoneNumber).data.reverse =
    '?' :: "uoy hcaer ot rebmun enohp tseb eht s'tahW".data from rfl] at h2
  simp only [List.cons_append, List.head?_cons] at h2
  exact absurd h2 (by decide)

/-! ## Claim C1 -/

/-- Claim C1 as stated is false: `createBookingState` copies pre-existing
data into `collectedFields` without validating it, and the controller
feeds it unvalidated conversation context, so a reachable state holds the
owner name "X", which fails its validator (trimmed length 1 < 2). -/
theorem c1_counterexample :
    ReachClaim (createBookingState badSeedData) ∧
    (createBookingState badSeedData).collectedFields FieldName.petOwnerName = some "X" ∧
    ¬ passedValidator FieldName.petOwnerName "X" := by
  refine ⟨ReachClaim.init badSeedData, rfl, ?_⟩
  rintro ⟨legacy, today, hval⟩
  rw [show validateField legacy today FieldName.petOwnerName "X" = validatePetOwnerName "X"
    from rfl] at hval
  exact absurd hval (by decide)

/-- Claim C1, amended: for booking states created with pre-existing data
whose values already passed the validators (in particular created empty)
and transformed by any sequence of `processMessage` turns, every value in
`collectedFields` passed its field's validator. -/
theorem c1_amended (s : BookingState) (hs : ReachValid s) :
    FieldsValidated s.collectedFields := by
  induction hs with
  | init d hd => exact hd
  | step legacy today msg s _ ih =>
    exact processMessage_preserves_validated legacy today msg s ih

/-- Witness for C1 at the empty initial state. -/
theorem c1_witness :
    ReachValid (createBookingState emptyFields) ∧
    FieldsValidated (createBookingState emptyFields).collectedFields :=
  have hinit : ReachValid (createBookingState emptyFields) :=
    ReachValid.init emptyFields (fun _ _ h => nomatch h)
  ⟨hinit, c1_amended _ hinit⟩

/-! ## Claim C3 -/

/-- Claim C3: an utterance matching a cancel keyword (whole-word, on the
lower-cased message) always yields action `cancelled` with `isActive`
false, whatever the state and whatever other signals the utterance also
carries — the cancel branch is checked first. -/
theorem c3_cancel_highest_precedence (legacy : String → Option Int) (today : Int)
    (msg : String) (s : BookingState)
    (h : wantsToCancelOf (lowerL msg.data) = true) :
    (processMessage legacy today msg s).action = FlowAction.cancelled ∧
    (processMessage legacy today msg s).state.isActive = false := by
  unfold processMessage analyzeMessage
  dsimp only
  rw [if_pos h]
  exact ⟨rfl, rfl⟩

/-- Witness for C3: "please cancel it and restart" matches both cancel
and restart keywords; cancel wins even from a confirming state. -/
theorem c3_witness :
    wantsToCancelOf (lowerL "please cancel it and restart".data) = true ∧
    wantsToRestartOf (lowerL "please cancel it and restart".data) = true ∧
    (processMessage legacyNone demoToday "please cancel it and restart"
      { demoState with isConfirming := true }).action = FlowAction.cancelled ∧
    (processMessage legacyNone demoToday "please cancel it and restart"
      { demoState with isConfirming := true }).state.isActive = false :=
  ⟨by decide, by decide,
    (c3_cancel_highest_precedence legacyNone demoToday "please cancel it and restart"
      { demoState with isConfirming := true } (by decide)).1,
    (c3_cancel_highest_precedence legacyNone demoToday "please cancel it and restart"
      { demoState with isConfirming := true } (by decide)).2⟩

/-! ## Claim C4 -/

/-- Claim C4: the response of `processMessage` is null exactly for the
`confirmed` action; every other action comes with a response string. -/
theorem c4_response_null_iff_confirmed (legacy : String → Option Int) (today : Int)
    (msg : String) (s : BookingState) :
    ((processMessage legacy today msg s).response = none) ↔
    ((processMessage legacy today msg s).action = FlowAction.confirmed) := by
  unfold processMessage
  dsimp only
  split_ifs
  all_goals repeat' split
  all_goals simp_all [getNextField_none_iff]

/-! ## Claim C5 -/

/-- Claim C5 as stated is false: a 60-letter name has trimmed length in
2..100 and only allowed characters, yet the validator rejects it — the
source caps the raw length at 50, not the trimmed length at 100. -/
theorem c5_counterexample :
    2 ≤ (trimL (String.mk (List.replicate 60 'a')).data).length ∧
    (trimL (String.mk (List.replicate 60 'a')).data).length ≤ 100 ∧
    (String.mk (List.replicate 60 'a')).data.all isNameChar = true ∧
    validatePetOwnerName (String.mk (List.replicate 60 'a')) =
      VRes.invalid "Name is too long" := by
  decide

/-- Claim C5, amended: the owner-name validator accepts exactly the
strings whose trimmed length is at least 2, whose raw length is at most
50, and whose characters are all letters, whitespace, hyphens or
apostrophes (non-empty); it never throws — every input yields either
validity or a reason string. -/
theorem c5_amended (v : String) :
    (validatePetOwnerName v = VRes.valid ↔
      2 ≤ (trimL v.data).length ∧ v.data.length ≤ 50 ∧ v.data ≠ [] ∧
        v.data.all isNameChar = true) ∧
    (validatePetOwnerName v = VRes.valid ∨
      ∃ r, validatePetOwnerName v = VRes.invalid r) := by
  constructor
  · unfold validatePetOwnerName
    split_ifs with h1 h2 h3
    · simp only [false_iff]
      · rintro ⟨ha, _, _, _⟩
        rcases h1 with he | ht
        · rw [he] at ha
          exact absurd ha (by decide)
        · omega
    · simp only [false_iff]
      rintro ⟨_, hb, _, _⟩
      omega
    · simp only [true_iff]
      push_neg at h1
      exact ⟨by omega, by omega, h3.1, h3.2⟩
    · simp only [false_iff]
      rintro ⟨_, _, hc, hd⟩
      exact h3 ⟨hc, hd⟩
  · cases h : validatePetOwnerName v with
    | valid => exact Or.inl rfl
    | invalid r => exact Or.inr ⟨r, rfl⟩

/-! ## Claim C9 -/

/-- Claim C9 as stated is false: the flow has no notes entry in
`FIELD_CONFIG`, so `validateField` accepts a 501-character notes value
instead of rejecting it. -/
theorem c9_counterexample :
    validateField legacyNone demoToday FieldName.notes
      (String.mk (List.replicate 501 'a')) = VRes.valid := rfl

/-- Claim C9, amended: the flow-level `validateField` accepts every notes
value (there is no notes field configuration or validator; the 500-char
cap lives only in the persistence-layer schema, outside this engine). -/
theorem c9_amended (legacy : String → Option Int) (today : Int) (v : String) :
    validateField legacy today FieldName.notes v = VRes.valid := rfl

/-! ## Claim C10 -/

/-- Claim C10: for any action other than `restarted`, every key present
in the input state's collected fields is still present in the output
state's collected fields (values may be overwritten, never deleted). -/
theorem c10_fields_monotone (legacy : String → Option Int) (today : Int)
    (msg : String) (s : BookingState) (f : FieldName) (v : String)
    (hact : (processMessage legacy today msg s).action ≠ FlowAction.restarted)
    (hv : s.collectedFields f = some v) :
    ∃ w, (processMessage legacy today msg s).state.collectedFields f = some w := by
  unfold processMessage at hact ⊢
  dsimp only at hact ⊢
  split_ifs at hact ⊢
  all_goals
    first
    | exact ⟨v, hv⟩
    | exact absurd rfl hact
    | (repeat' split
       all_goals exact foldl_updateStep_keeps legacy today _ requiredFields _ f v hv)

/-- Witness for C10: a greeting during collection leaves the collected
owner name in place. -/
theorem c10_witness :
    (processMessage legacyNone demoToday "hello there" demoState).action ≠
      FlowAction.restarted ∧
    demoState.collectedFields FieldName.petOwnerName = some "John" ∧
    ∃ w, (processMessage legacyNone demoToday "hello there" demoState).state.collectedFields
      FieldName.petOwnerName = some w :=
  ⟨by decide, rfl,
    c10_fields_monotone legacyNone demoToday "hello there" demoState
      FieldName.petOwnerName "John" (by decide) rfl⟩

/-! ## Claim C2 -/

/-- Claim C2 as stated is false: on "I'm John and my dog is Buddy" the
owner-name pattern `/i'm (\w+(?:\s+\w+)?)/i` greedily captures the two
words "John and", and no pet-name pattern matches (none covers "my dog is
Buddy"), so neither `petOwnerName="John"` nor `petName="Buddy"` is
extracted. -/
theorem c2_counterexample :
    (extractWithPatterns legacyNone demoToday "I'm John and my dog is Buddy")
      FieldName.petOwnerName = some "John and" ∧
    (extractWithPatterns legacyNone demoToday "I'm John and my dog is Buddy")
      FieldName.petName = none := ⟨rfl, rfl⟩

/-- Claim C2, amended: the extractor yields `petOwnerName = "John and"`
and no pet name; processing the utterance against an empty state (with
the host's generic date parser rejecting the sentence, as real hosts do)
stores "John and" and prompts for the pet's name — the first missing
field — not for the phone number. -/
theorem c2_amended (legacy : String → Option Int) (today : Int)
    (h : legacy "I'm John and my dog is Buddy" = none) :
    (extractWithPatterns legacy today "I'm John and my dog is Buddy")
      FieldName.petOwnerName = some "John and" ∧
    (extractWithPatterns legacy today "I'm John and my dog is Buddy")
      FieldName.petName = none ∧
    (processMessage legacy today "I'm John and my dog is Buddy"
      (createBookingState emptyFields)).state.collectedFields FieldName.petOwnerName =
      some "John and" ∧
    (processMessage legacy today "I'm John and my dog is Buddy"
      (createBookingState emptyFields)).response =
      some ("Got it, thanks!" ++ "\n\n" ++ promptOf FieldName.petName) ∧
    (processMessage legacy today "I'm John and my dog is Buddy"
      (createBookingState emptyFields)).action = FlowAction.collecting := by
  have hd : parseNaturalDate legacy today "I'm John and my dog is Buddy" = none := by
    rw [c2_date_eq legacy today, h]
  have hex : (analyzeMessage legacy today "I'm John and my dog is Buddy").fields =
      (fun f => match f with
        | FieldName.petOwnerName => some "John and"
        | _ => none) := by
    funext f
    cases f
    case preferredDate => exact hd
    all_goals rfl
  refine ⟨rfl, rfl, ?_, ?_, ?_⟩
  all_goals
    unfold processMessage
    dsimp only
    rw [hex]
    rfl

/-- Witness for C2 amended: concrete host parser (rejecting everything)
and a concrete today, with the hypothesis discharged definitionally. -/
theorem c2_witness :
    legacyNone "I'm John and my dog is Buddy" = none ∧
    ((extractWithPatterns legacyNone demoToday "I'm John and my dog is Buddy")
      FieldName.petOwnerName = some "John and" ∧
    (extractWithPatterns legacyNone demoToday "I'm John and my dog is Buddy")
      FieldName.petName = none ∧
    (processMessage legacyNone demoToday "I'm John and my dog is Buddy"
      (createBookingState emptyFields)).state.collectedFields FieldName.petOwnerName =
      some "John and" ∧
    (processMessage legacyNone demoToday "I'm John and my dog is Buddy"
      (createBookingState emptyFields)).response =
      some ("Got it, thanks!" ++ "\n\n" ++ promptOf FieldName.petName) ∧
    (processMessage legacyNone demoToday "I'm John and my dog is Buddy"
      (createBookingState emptyFields)).action = FlowAction.collecting) :=
  ⟨rfl, c2_amended legacyNone demoToday rfl⟩

/-! ## Claim C6 -/

/-- Claim C6 as stated is false: no phone pattern matches the 3-digit
"123" (all require at least 10 digits), so the phone validator is never
invoked and the phone-specific retry prompt is never produced.  Whether
the host's generic date parser rejects "123" or reads it as the year 123,
the response is the plain next-field phone prompt or the date retry
prompt — not the phone retry prompt (phone does stay absent and the
action stays `collecting`). -/
theorem c6_counterexample :
    (extractWithPatterns legacyNone demoToday "123") FieldName.phoneNumber = none ∧
    (processMessage legacyNone demoToday "123" demoState).response =
      some (promptOf FieldName.phoneNumber) ∧
    (processMessage legacyNone demoToday "123" demoState).response ≠
      some (errorPromptOf FieldName.phoneNumber) ∧
    (processMessage legacy123 demoToday "123" demoState).response =
      some (errorPromptOf FieldName.preferredDate) ∧
    (processMessage legacy123 demoToday "123" demoState).response ≠
      some (errorPromptOf FieldName.phoneNumber) := by
  refine ⟨rfl, rfl, ?_, rfl, ?_⟩ <;> decide

/-- Claim C6, amended: on "123" with phone missing, the action stays
`collecting` and phone stays absent, but the response is never the
phone-specific retry prompt, whatever the host's generic date parser does
with "123": it is the date retry prompt when that parser produces an
invalid/out-of-range date, an acknowledgment plus the phone prompt when
it produces a bookable date, and the plain phone prompt otherwise. -/
theorem c6_amended (legacy : String → Option Int) (today : Int) :
    (processMessage legacy today "123" demoState).action = FlowAction.collecting ∧
    (processMessage legacy today "123" demoState).state.collectedFields
      FieldName.phoneNumber = none ∧
    (processMessage legacy today "123" demoState).response ≠
      some (errorPromptOf FieldName.phoneNumber) := by
  have hd := c6_date_eq legacy today
  cases hl : legacy "123" with
  | none =>
    rw [hl] at hd
    have hex : (analyzeMessage legacy today "123").fields = (fun _ => none) := by
      funext f
      cases f
      case preferredDate => exact hd
      all_goals rfl
    have hresp : (processMessage legacy today "123" demoState).response =
        some (promptOf FieldName.phoneNumber) := by
      unfold processMessage
      dsimp only
      rw [hex]
      rfl
    refine ⟨?_, ?_, ?_⟩
    · unfold processMessage
      dsimp only
      rw [hex]
      rfl
    · unfold processMessage
      dsimp only
      rw [hex]
      rfl
    · intro hc
      rw [hresp] at hc
      exact absurd hc (by decide)
  | some d =>
    rw [hl] at hd
    have hex : (analyzeMessage legacy today "123").fields =
        (fun f => match f with
          | FieldName.preferredDate => some (formatDate d)
          | _ => none) := by
      funext f
      cases f
      case preferredDate => exact hd
      all_goals rfl
    cases hv : validatePreferredDate legacy today (formatDate d) with
    | valid =>
      have hacc : requiredFields.foldl
          (updateStep legacy today (analyzeMessage legacy today "123").fields)
          { updatedFields := demoState.collectedFields, hasNewData := false,
            invalidField := none, validationError := none } =
          { updatedFields := setField demoState.collectedFields FieldName.preferredDate
              (formatDate d),
            hasNewData := true, invalidField := none, validationError := none } := by
        rw [hex]
        simp only [requiredFields, List.foldl_cons, List.foldl_nil, updateStep]
        simp only [ne_eq, formatDate_ne_empty, not_false_eq_true, if_true,
          show validateField legacy today FieldName.preferredDate (formatDate d) =
            validatePreferredDate legacy today (formatDate d) from rfl, hv]
      refine ⟨?_, ?_, ?_⟩
      · unfold processMessage
        dsimp only
        rw [hacc]
        rfl
      · unfold processMessage
        dsimp only
        rw [hacc]
        rfl
      · intro hc
        unfold processMessage at hc
        dsimp only at hc
        rw [hacc] at hc
        exact resp_ne_phone_retry_opt _ hc
    | invalid e =>
      have hacc : requiredFields.foldl
          (updateStep legacy today (analyzeMessage legacy today "123").fields)
          { updatedFields := demoState.collectedFields, hasNewData := false,
            invalidField := none, validationError := none } =
          { updatedFields := demoState.collectedFields, hasNewData := false,
            invalidField := some FieldName.preferredDate, validationError := some e } := by
        rw [hex]
        simp only [requiredFields, List.foldl_cons, List.foldl_nil, updateStep]
        simp only [ne_eq, formatDate_ne_empty, not_false_eq_true, if_true,
          show validateField legacy today FieldName.preferredDate (formatDate d) =
            validatePreferredDate legacy today (formatDate d) from rfl, hv]
      have hresp : (processMessage legacy today "123" demoState).response =
          some (generatePrompt FieldName.preferredDate true) := by
        unfold processMessage
        dsimp only
        rw [hacc]
        rfl
      refine ⟨?_, ?_, ?_⟩
      · unfold processMessage
        dsimp only
        rw [hacc]
        rfl
      · unfold processMessage
        dsimp only
        rw [hacc]
        rfl
      · intro hc
        rw [hresp] at hc
        exact absurd hc (by decide)

/-! ## Claim C8 -/

/-- Claim C8: for every weekday, `next <weekday>` resolves to exactly 7
days after `this <weekday>` (the source computes the same `daysUntil`
and adds 7), and when today is that weekday the offset is 14 days
(`daysUntil` is 0, bumped to 7, plus the extra week). -/
theorem c8_next_weekday (legacy : String → Option Int) (today : Int) (w : Fin 7) :
    parseNaturalDate legacy today ("next " ++ weekdayName w.val) =
      some (formatDate (today + (thisWeekdayOffset today w.val + 7))) ∧
    parseNaturalDate legacy today ("this " ++ weekdayName w.val) =
      some (formatDate (today + thisWeekdayOffset today w.val)) ∧
    (jsGetDay today = w.val → thisWeekdayOffset today w.val + 7 = 14) := by
  refine ⟨?_, ?_, fun h => ?_⟩
  · fin_cases w <;> rfl
  · fin_cases w <;> rfl
  · unfold thisWeekdayOffset
    rw [h]
    simp

/-- Witness for C8 at a Sunday: the offset for `next Sunday` is 14 days
and the parse lands 14 days out. -/
theorem c8_witness :
    jsGetDay demoToday = ((0 : Fin 7).val : Int) ∧
    thisWeekdayOffset demoToday ((0 : Fin 7).val : Int) + 7 = 14 ∧
    parseNaturalDate legacyNone demoToday ("next " ++ weekdayName ((0 : Fin 7).val : Int)) =
      some (formatDate (demoToday + (thisWeekdayOffset demoToday ((0 : Fin 7).val : Int) + 7))) :=
  ⟨by decide, (c8_next_weekday legacyNone demoToday 0).2.2 (by decide),
    (c8_next_weekday legacyNone demoToday 0).1⟩

/-! ## C7 helper lemmas: characters and digit runs -/

/-- Lower-casing fixes any decimal digit character. -/
theorem toLower_of_digit (c : Char) (h : isDigitChar c = true) :
    toLowerChar c = c := by
  unfold isDigitChar at h
  simp only [Bool.and_eq_true, decide_eq_true_eq] at h
  unfold toLowerChar
  rw [if_neg]
  omega

/-- A decimal digit character is not whitespace. -/
theorem ws_of_digit (c : Char) (h : isDigitChar c = true) :
    isWsChar c = false := by
  unfold isDigitChar at h
  simp only [Bool.and_eq_true, decide_eq_true_eq] at h
  unfold isWsChar
  simp only [Bool.or_eq_false_iff, Bool.and_eq_false_iff, decide_eq_false_iff_not]
  omega

/-- A decimal digit character differs from any non-digit character. -/
theorem digit_ne (c d : Char) (h : isDigitChar c = true)
    (hd : isDigitChar d = false) : c ≠ d := by
  intro he
  rw [he, hd] at h
  exact Bool.false_ne_true h

/-- Lower-casing is the identity on all-digit lists. -/
theorem lowerL_digits (l : List Char) (h : ∀ c ∈ l, isDigitChar c = true) :
    lowerL l = l := by
  induction l with
  | nil => rfl
  | cons a t ih =>
    show toLowerChar a :: lowerL t = a :: t
    rw [toLower_of_digit a (h a (List.mem_cons_self a t)),
      ih (fun c hc => h c (List.mem_cons_of_mem a hc))]

/-- One `searchAux` step past a position with no match. -/
theorem searchAux_step (re : Re) (c : Char) (t : List Char)
    (h : Re.runAll re (c :: t) = []) :
    searchAux re (c :: t) = searchAux re t := by
  show (match Re.runAll re (c :: t) with
    | r :: _ => some r.2
    | [] => searchAux re t) = searchAux re t
  rw [h]

/-- `next …` cannot match at a digit position. -/
theorem runAll_next_digit (c : Char) (t : List Char) (h : isDigitChar c = true) :
    Re.runAll nextDayRe (c :: t) = [] := by
  have hn : toLowerChar c ≠ 'n' := by
    rw [toLower_of_digit c h]
    exact digit_ne c 'n' h (by decide)
  have hdrop : dropLitCI "next".data (c :: t) = none := by
    show dropLitCI ('n' :: "ext".data) (c :: t) = none
    unfold dropLitCI
    rw [if_neg hn]
  have hlit : Re.runAll (.litCI "next".data) (c :: t) = [] := by
    unfold Re.runAll
    rw [hdrop]
  unfold nextDayRe ciLit Re.runAll
  rw [hlit]
  rfl

/-- `this …` cannot match at a digit position. -/
theorem runAll_this_digit (c : Char) (t : List Char) (h : isDigitChar c = true) :
    Re.runAll thisDayRe (c :: t) = [] := by
  have hn : toLowerChar c ≠ 't' := by
    rw [toLower_of_digit c h]
    exact digit_ne c 't' h (by decide)
  have hdrop : dropLitCI "this".data (c :: t) = none := by
    show dropLitCI ('t' :: "his".data) (c :: t) = none
    unfold dropLitCI
    rw [if_neg hn]
  have hlit : Re.runAll (.litCI "this".data) (c :: t) = [] := by
    unfold Re.runAll
    rw [hdrop]
  unfold thisDayRe ciLit Re.runAll
  rw [hlit]
  rfl

/-- Searching `next <weekday>` skips over any all-digit prefix. -/
theorem searchAux_next_digits (D : List Char) (h : ∀ c ∈ D, isDigitChar c = true)
    (rest : List Char) :
    searchAux nextDayRe (D ++ rest) = searchAux nextDayRe rest := by
  induction D with
  | nil => rfl
  | cons a t ih =>
    rw [List.cons_append,
      searchAux_step _ _ _ (runAll_next_digit a _ (h a (List.mem_cons_self a t))),
      ih (fun c hc => h c (List.mem_cons_of_mem a hc))]

/-- Searching `this <weekday>` skips over any all-digit prefix. -/
theorem searchAux_this_digits (D : List Char) (h : ∀ c ∈ D, isDigitChar c = true)
    (rest : List Char) :
    searchAux thisDayRe (D ++ rest) = searchAux thisDayRe rest := by
  induction D with
  | nil => rfl
  | cons a t ih =>
    rw [List.cons_append,
      searchAux_step _ _ _ (runAll_this_digit a _ (h a (List.mem_cons_self a t))),
      ih (fun c hc => h c (List.mem_cons_of_mem a hc))]

/-- "day after tomorrow" does not start at a digit position. -/
theorem startsWith_day_digit (c : Char) (t : List Char) (h : isDigitChar c = true) :
    startsWithL "day after tomorrow".data (c :: t) = false := by
  have hd : ('d' : Char) ≠ c := (digit_ne c 'd' h (by decide)).symm
  show (('d' : Char) = c && startsWithL "ay after tomorrow".data t) = false
  rw [decide_eq_false hd, Bool.false_and]

/-- The "day after tomorrow" test skips over any all-digit prefix. -/
theorem containsSub_day_digits (D : List Char) (h : ∀ c ∈ D, isDigitChar c = true)
    (rest : List Char) :
    containsSub "day after tomorrow".data (D ++ rest) =
      containsSub "day after tomorrow".data rest := by
  induction D with
  | nil => rfl
  | cons a t ih =>
    rw [List.cons_append]
    show (startsWithL "day after tomorrow".data (a :: (t ++ rest)) ||
      containsSub "day after tomorrow".data (t ++ rest)) = _
    rw [startsWith_day_digit a _ (h a (List.mem_cons_self a t)), Bool.false_or,
      ih (fun c hc => h c (List.mem_cons_of_mem a hc))]

/-- Searching `next <weekday>` skips a lower-cased weekday name plus
comma-space. -/
theorem searchAux_next_skip_wd (w : Int) (h1 : 0 ≤ w) (h2 : w ≤ 6) (rest : List Char) :
    searchAux nextDayRe (lowerL (weekdayName w).data ++ ',' :: ' ' :: rest) =
      searchAux nextDayRe rest := by
  interval_cases w <;> rfl

/-- Searching `this <weekday>` skips a lower-cased weekday name plus
comma-space. -/
theorem searchAux_this_skip_wd (w : Int) (h1 : 0 ≤ w) (h2 : w ≤ 6) (rest : List Char) :
    searchAux thisDayRe (lowerL (weekdayName w).data ++ ',' :: ' ' :: rest) =
      searchAux thisDayRe rest := by
  interval_cases w <;> rfl

/-! ## C7: equational evaluation of the month-day pattern

Brute-force `rfl` evaluation of `monthDayRe` is infeasible (the
backtracking `seq` chains re-evaluate shared subterms), so the
evaluation is driven by small equations instead. -/

/-- Definition equation of `runAll` on `seq`. -/
theorem runAll_seq_eq (a b : Re) (l : List Char) :
    Re.runAll (.seq a b) l = (Re.runAll a l).flatMap fun x =>
      (Re.runAll b x.1.2).map fun y => ((x.1.1 ++ y.1.1, y.1.2), x.2 ++ y.2) := rfl

/-- Definition equation of `runAll` on `opt`. -/
theorem runAll_opt_eq (a : Re) (l : List Char) :
    Re.runAll (.opt a) l = Re.runAll a l ++ [(([], l), [])] := rfl

/-- Definition equation of `runAll` on `group`. -/
theorem runAll_group_eq (i : Nat) (a : Re) (l : List Char) :
    Re.runAll (.group i a) l = (Re.runAll a l).map fun x => (x.1, (i, x.1.1) :: x.2) := rfl

/-- Definition equation of `runAll` on `reps`. -/
theorem runAll_reps_eq (p : Char → Bool) (lo : Nat) (hi : Option Nat) (l : List Char) :
    Re.runAll (.reps p lo hi) l = (repsChoices p lo hi l).map fun k =>
      ((l.take k, l.drop k), []) := rfl

/-- A repetition with a positive lower bound fails when the head char
falls outside the class. -/
theorem runAll_reps_none_of_head (p : Char → Bool) (lo : Nat) (hi : Option Nat)
    (hlo : 1 ≤ lo) (c : Char) (t : List Char) (hc : p c = false) :
    Re.runAll (.reps p lo hi) (c :: t) = [] := by
  rw [runAll_reps_eq]
  unfold repsChoices
  simp only [List.takeWhile_cons, hc, Bool.false_eq_true, if_false, List.length_nil]
  have h0 : (decide (lo ≤ 0)) = false := decide_eq_false (by omega)
  cases hi with
  | none =>
    rw [show (List.range (0 + 1)).reverse = [0] from by decide, List.filter_cons, h0]
    simp only [Bool.false_eq_true, if_false, List.filter_nil, List.map_nil]
  | some h =>
    dsimp only
    rw [show h ⊓ 0 = 0 from Nat.min_zero h, show (List.range (0 + 1)).reverse = [0] from by decide,
      List.filter_cons, h0]
    simp only [Bool.false_eq_true, if_false, List.filter_nil, List.map_nil]

/-- The optional leading `<day> ` part of the month-day pattern matches
only emptily at a non-digit position. -/
theorem runAll_dayPrefix_skip (c : Char) (t : List Char) (hc : isDigitChar c = false) :
    Re.runAll (.opt (.seq (.group 1 (.reps isDigitChar 1 (some 2)))
      (.seq (.opt ordinalAlt) (.reps isWsChar 1 none)))) (c :: t) =
      [(([], c :: t), [])] := by
  rw [runAll_opt_eq, runAll_seq_eq, runAll_group_eq,
    runAll_reps_none_of_head isDigitChar 1 (some 2) (by omega) c t hc]
  rfl

/-- The month-day pattern has no match at a non-digit position where the
month alternation fails. -/
theorem runAll_md_nil (c : Char) (t : List Char) (hc : isDigitChar c = false)
    (hm : Re.runAll monthAlt (c :: t) = []) :
    Re.runAll monthDayRe (c :: t) = [] := by
  show Re.runAll (.seq _ (.seq (.group 2 monthAlt) _)) (c :: t) = []
  rw [runAll_seq_eq, runAll_dayPrefix_skip c t hc]
  simp only [List.flatMap_cons, List.flatMap_nil, List.append_nil]
  rw [runAll_seq_eq, runAll_group_eq, hm]
  rfl

/-- One month-day search step at a non-digit, non-month position. -/
theorem searchAux_md_step (c : Char) (t : List Char) (hc : isDigitChar c = false)
    (hm : Re.runAll monthAlt (c :: t) = []) :
    searchAux monthDayRe (c :: t) = searchAux monthDayRe t :=
  searchAux_step _ _ _ (runAll_md_nil c t hc hm)

/-- Searching the month-day pattern skips a lower-cased weekday name plus
comma-space: no month name, digit or ordinal starts inside it. -/
theorem searchAux_md_skip_wd (w : Int) (h1 : 0 ≤ w) (h2 : w ≤ 6) (rest : List Char) :
    searchAux monthDayRe (lowerL (weekdayName w).data ++ ',' :: ' ' :: rest) =
      searchAux monthDayRe rest := by
  interval_cases w
  · show searchAux monthDayRe ('s' :: 'u' :: 'n' :: 'd' :: 'a' :: 'y' :: ',' :: ' ' :: rest) = searchAux monthDayRe rest
    rw [searchAux_md_step 's' ('u' :: 'n' :: 'd' :: 'a' :: 'y' :: ',' :: ' ' :: rest) (by decide) rfl,
      searchAux_md_step 'u' ('n' :: 'd' :: 'a' :: 'y' :: ',' :: ' ' :: rest) (by decide) rfl,
      searchAux_md_step 'n' ('d' :: 'a' :: 'y' :: ',' :: ' ' :: rest) (by decide) rfl,
      searchAux_md_step 'd' ('a' :: 'y' :: ',' :: ' ' :: rest) (by decide) rfl,
      searchAux_md_step 'a' ('y' :: ',' :: ' ' :: rest) (by decide) rfl,
      searchAux_md_step 'y' (',' :: ' ' :: rest) (by decide) rfl,
      searchAux_md_step ',' (' ' :: rest) (by decide) rfl,
      searchAux_md_step ' ' (rest) (by decide) rfl]
  · show searchAux monthDayRe ('m' :: 'o' :: 'n' :: 'd' :: 'a' :: 'y' :: ',' :: ' ' :: rest) = searchAux monthDayRe rest
    rw [searchAux_md_step 'm' ('o' :: 'n' :: 'd' :: 'a' :: 'y' :: ',' :: ' ' :: rest) (by decide) rfl,
      searchAux_md_step 'o' ('n' :: 'd' :: 'a' :: 'y' :: ',' :: ' ' :: rest) (by decide) rfl,
      searchAux_md_step 'n' ('d' :: 'a' :: 'y' :: ',' :: ' ' :: rest) (by decide) rfl,
      searchAux_md_step 'd' ('a' :: 'y' :: ',' :: ' ' :: rest) (by decide) rfl,
      searchAux_md_step 'a' ('y' :: ',' :: ' ' :: rest) (by decide) rfl,
      searchAux_md_step 'y' (',' :: ' ' :: rest) (by decide) rfl,
      searchAux_md_step ',' (' ' :: rest) (by decide) rfl,
      searchAux_md_step ' ' (rest) (by decide) rfl]
  · show searchAux monthDayRe ('t' :: 'u' :: 'e' :: 's' :: 'd' :: 'a' :: 'y' :: ',' :: ' ' :: rest) = searchAux monthDayRe rest
    rw [searchAux_md_step 't' ('u' :: 'e' :: 's' :: 'd' :: 'a' :: 'y' :: ',' :: ' ' :: rest) (by decide) rfl,
      searchAux_md_step 'u' ('e' :: 's' :: 'd' :: 'a' :: 'y' :: ',' :: ' ' :: rest) (by decide) rfl,
      searchAux_md_step 'e' ('s' :: 'd' :: 'a' :: 'y' :: ',' :: ' ' :: rest) (by decide) rfl,
      searchAux_md_step 's' ('d' :: 'a' :: 'y' :: ',' :: ' ' :: rest) (by decide) rfl,
      searchAux_md_step 'd' ('a' :: 'y' :: ',' :: ' ' :: rest) (by decide) rfl,
      searchAux_md_step 'a' ('y' :: ',' :: ' ' :: rest) (by decide) rfl,
      searchAux_md_step 'y' (',' :: ' ' :: rest) (by decide) rfl,
      searchAux_md_step ',' (' ' :: rest) (by decide) rfl,
      searchAux_md_step ' ' (rest) (by decide) rfl]
  · show searchAux monthDayRe ('w' :: 'e' :: 'd' :: 'n' :: 'e' :: 's' :: 'd' :: 'a' :: 'y' :: ',' :: ' ' :: rest) = searchAux monthDayRe rest
    rw [searchAux_md_step 'w' ('e' :: 'd' :: 'n' :: 'e' :: 's' :: 'd' :: 'a' :: 'y' :: ',' :: ' ' :: rest) (by decide) rfl,
      searchAux_md_step 'e' ('d' :: 'n' :: 'e' :: 's' :: 'd' :: 'a' :: 'y' :: ',' :: ' ' :: rest) (by decide) rfl,
      searchAux_md_step 'd' ('n' :: 'e' :: 's' :: 'd' :: 'a' :: 'y' :: ',' :: ' ' :: rest) (by decide) rfl,
      searchAux_md_step 'n' ('e' :: 's' :: 'd' :: 'a' :: 'y' :: ',' :: ' ' :: rest) (by decide) rfl,
      searchAux_md_step 'e' ('s' :: 'd' :: 'a' :: 'y' :: ',' :: ' ' :: rest) (by decide) rfl,
      searchAux_md_step 's' ('d' :: 'a' :: 'y' :: ',' :: ' ' :: rest) (by decide) rfl,
      searchAux_md_step 'd' ('a' :: 'y' :: ',' :: ' ' :: rest) (by decide) rfl,
      searchAux_md_step 'a' ('y' :: ',' :: ' ' :: rest) (by decide) rfl,
      searchAux_md_step 'y' (',' :: ' ' :: rest) (by decide) rfl,
      searchAux_md_step ',' (' ' :: rest) (by decide) rfl,
      searchAux_md_step ' ' (rest) (by decide) rfl]
  · show searchAux monthDayRe ('t' :: 'h' :: 'u' :: 'r' :: 's' :: 'd' :: 'a' :: 'y' :: ',' :: ' ' :: rest) = searchAux monthDayRe rest
    rw [searchAux_md_step 't' ('h' :: 'u' :: 'r' :: 's' :: 'd' :: 'a' :: 'y' :: ',' :: ' ' :: rest) (by decide) rfl,
      searchAux_md_step 'h' ('u' :: 'r' :: 's' :: 'd' :: 'a' :: 'y' :: ',' :: ' ' :: rest) (by decide) rfl,
      searchAux_md_step 'u' ('r' :: 's' :: 'd' :: 'a' :: 'y' :: ',' :: ' ' :: rest) (by decide) rfl,
      searchAux_md_step 'r' ('s' :: 'd' :: 'a' :: 'y' :: ',' :: ' ' :: rest) (by decide) rfl,
      searchAux_md_step 's' ('d' :: 'a' :: 'y' :: ',' :: ' ' :: rest) (by decide) rfl,
      searchAux_md_step 'd' ('a' :: 'y' :: ',' :: ' ' :: rest) (by decide) rfl,
      searchAux_md_step 'a' ('y' :: ',' :: ' ' :: rest) (by decide) rfl,
      searchAux_md_step 'y' (',' :: ' ' :: rest) (by decide) rfl,
      searchAux_md_step ',' (' ' :: rest) (by decide) rfl,
      searchAux_md_step ' ' (rest) (by decide) rfl]
  · show searchAux monthDayRe ('f' :: 'r' :: 'i' :: 'd' :: 'a' :: 'y' :: ',' :: ' ' :: rest) = searchAux monthDayRe rest
    rw [searchAux_md_step 'f' ('r' :: 'i' :: 'd' :: 'a' :: 'y' :: ',' :: ' ' :: rest) (by decide) rfl,
      searchAux_md_step 'r' ('i' :: 'd' :: 'a' :: 'y' :: ',' :: ' ' :: rest) (by decide) rfl,
      searchAux_md_step 'i' ('d' :: 'a' :: 'y' :: ',' :: ' ' :: rest) (by decide) rfl,
      searchAux_md_step 'd' ('a' :: 'y' :: ',' :: ' ' :: rest) (by decide) rfl,
      searchAux_md_step 'a' ('y' :: ',' :: ' ' :: rest) (by decide) rfl,
      searchAux_md_step 'y' (',' :: ' ' :: rest) (by decide) rfl,
      searchAux_md_step ',' (' ' :: rest) (by decide) rfl,
      searchAux_md_step ' ' (rest) (by decide) rfl]
  · show searchAux monthDayRe ('s' :: 'a' :: 't' :: 'u' :: 'r' :: 'd' :: 'a' :: 'y' :: ',' :: ' ' :: rest) = searchAux monthDayRe rest
    rw [searchAux_md_step 's' ('a' :: 't' :: 'u' :: 'r' :: 'd' :: 'a' :: 'y' :: ',' :: ' ' :: rest) (by decide) rfl,
      searchAux_md_step 'a' ('t' :: 'u' :: 'r' :: 'd' :: 'a' :: 'y' :: ',' :: ' ' :: rest) (by decide) rfl,
      searchAux_md_step 't' ('u' :: 'r' :: 'd' :: 'a' :: 'y' :: ',' :: ' ' :: rest) (by decide) rfl,
      searchAux_md_step 'u' ('r' :: 'd' :: 'a' :: 'y' :: ',' :: ' ' :: rest) (by decide) rfl,
      searchAux_md_step 'r' ('d' :: 'a' :: 'y' :: ',' :: ' ' :: rest) (by decide) rfl,
      searchAux_md_step 'd' ('a' :: 'y' :: ',' :: ' ' :: rest) (by decide) rfl,
      searchAux_md_step 'a' ('y' :: ',' :: ' ' :: rest) (by decide) rfl,
      searchAux_md_step 'y' (',' :: ' ' :: rest) (by decide) rfl,
      searchAux_md_step ',' (' ' :: rest) (by decide) rfl,
      searchAux_md_step ' ' (rest) (by decide) rfl]

/-- Searching `next <weekday>` skips a lower-cased month name plus space. -/
theorem searchAux_next_skip_mn (m : Int) (h1 : 1 ≤ m) (h2 : m ≤ 12) (rest : List Char) :
    searchAux nextDayRe (lowerL (monthName m).data ++ ' ' :: rest) =
      searchAux nextDayRe rest := by
  interval_cases m <;> rfl

/-- Searching `this <weekday>` skips a lower-cased month name plus space. -/
theorem searchAux_this_skip_mn (m : Int) (h1 : 1 ≤ m) (h2 : m ≤ 12) (rest : List Char) :
    searchAux thisDayRe (lowerL (monthName m).data ++ ' ' :: rest) =
      searchAux thisDayRe rest := by
  interval_cases m <;> rfl

/-- Searching `next <weekday>` steps over a comma-space. -/
theorem searchAux_next_commaspace (rest : List Char) :
    searchAux nextDayRe (',' :: ' ' :: rest) = searchAux nextDayRe rest := rfl

/-- Searching `this <weekday>` steps over a comma-space. -/
theorem searchAux_this_commaspace (rest : List Char) :
    searchAux thisDayRe (',' :: ' ' :: rest) = searchAux thisDayRe rest := rfl

/-- `next <weekday>` never matches inside an all-digit string. -/
theorem searchAux_next_digits_none (Y : List Char) (h : ∀ c ∈ Y, isDigitChar c = true) :
    searchAux nextDayRe Y = none := by
  induction Y with
  | nil => rfl
  | cons a t ih =>
    rw [searchAux_step _ _ _ (runAll_next_digit a _ (h a (List.mem_cons_self a t))),
      ih (fun c hc => h c (List.mem_cons_of_mem a hc))]

/-- `this <weekday>` never matches inside an all-digit string. -/
theorem searchAux_this_digits_none (Y : List Char) (h : ∀ c ∈ Y, isDigitChar c = true) :
    searchAux thisDayRe Y = none := by
  induction Y with
  | nil => rfl
  | cons a t ih =>
    rw [searchAux_step _ _ _ (runAll_this_digit a _ (h a (List.mem_cons_self a t))),
      ih (fun c hc => h c (List.mem_cons_of_mem a hc))]

/-- The "day after tomorrow" test skips a lower-cased weekday name plus
comma-space (the terminal "day" of a weekday is followed by a comma, not
a space). -/
theorem containsSub_day_skip_wd (w : Int) (h1 : 0 ≤ w) (h2 : w ≤ 6) (rest : List Char) :
    containsSub "day after tomorrow".data (lowerL (weekdayName w).data ++ ',' :: ' ' :: rest) =
      containsSub "day after tomorrow".data rest := by
  interval_cases w <;> rfl

/-- The "day after tomorrow" test skips a lower-cased month name plus space. -/
theorem containsSub_day_skip_mn (m : Int) (h1 : 1 ≤ m) (h2 : m ≤ 12) (rest : List Char) :
    containsSub "day after tomorrow".data (lowerL (monthName m).data ++ ' ' :: rest) =
      containsSub "day after tomorrow".data rest := by
  interval_cases m <;> rfl

/-- The "day after tomorrow" test steps over a comma-space. -/
theorem containsSub_day_commaspace (rest : List Char) :
    containsSub "day after tomorrow".data (',' :: ' ' :: rest) =
      containsSub "day after tomorrow".data rest := rfl

/-- "day after tomorrow" never occurs in an all-digit string. -/
theorem containsSub_day_digits_none (Y : List Char) (h : ∀ c ∈ Y, isDigitChar c = true) :
    containsSub "day after tomorrow".data Y = false := by
  induction Y with
  | nil => rfl
  | cons a t ih =>
    show (startsWithL "day after tomorrow".data (a :: t) ||
      containsSub "day after tomorrow".data t) = false
    rw [startsWith_day_digit a _ (h a (List.mem_cons_self a t)), Bool.false_or,
      ih (fun c hc => h c (List.mem_cons_of_mem a hc))]

/-- `takeWhile isDigitChar` on an all-digit list followed by a non-digit
takes exactly the digits. -/
theorem takeWhile_digits_append (D : List Char) (hD : ∀ c ∈ D, isDigitChar c = true)
    (c : Char) (hc : isDigitChar c = false) (rest : List Char) :
    (D ++ c :: rest).takeWhile isDigitChar = D := by
  induction D with
  | nil =>
    rw [List.nil_append, List.takeWhile_cons, hc]
    simp only [Bool.false_eq_true, if_false]
  | cons a t ih =>
    rw [List.cons_append, List.takeWhile_cons, hD a (List.mem_cons_self a t)]
    simp only [if_true]
    rw [ih (fun x hx => hD x (List.mem_cons_of_mem a hx))]

/-- At the start of a lower-cased month name, the month alternation's
highest-priority result consumes exactly the name. -/
theorem runAll_monthAlt_at (m : Int) (h1 : 1 ≤ m) (h2 : m ≤ 12) (rest : List Char) :
    ∃ tail1, Re.runAll monthAlt (lowerL (monthName m).data ++ rest) =
      ((lowerL (monthName m).data, rest), []) :: tail1 := by
  interval_cases m <;> exact ⟨_, rfl⟩

/-- Extract the tail of a list whose head is known. -/
theorem exists_tail_of_head {α : Type} (l : List α) (x : α) (h : l.head? = some x) :
    ∃ t, l = x :: t := by
  cases l with
  | nil => exact absurd h (by simp)
  | cons a t =>
    rw [List.head?_cons, Option.some.injEq] at h
    exact ⟨t, by rw [h]⟩

set_option maxHeartbeats 1600000 in
/-- Core of the month-day scan: at the start of a month name followed by
space, a 1-2 digit day, comma-space and arbitrary text, the month-day
pattern matches with group 2 = the month name and group 3 = the day
digits. -/
theorem scan_core (M D Y : List Char) (mc : Char) (mt : List Char)
    (hM : M = mc :: mt) (hmc : isDigitChar mc = false)
    (hMalt : ∃ tail1, Re.runAll monthAlt (M ++ ' ' :: (D ++ ',' :: ' ' :: Y)) =
      ((M, ' ' :: (D ++ ',' :: ' ' :: Y)), []) :: tail1)
    (hD : ∀ c ∈ D, isDigitChar c = true)
    (hDlen : D.length = 1 ∨ D.length = 2) :
    searchAux monthDayRe (M ++ ' ' :: (D ++ ',' :: ' ' :: Y)) = some [(2, M), (3, D)] := by
  obtain ⟨tail1, hMa⟩ := hMalt
  have hDne : D ≠ [] := by
    intro he
    rw [he] at hDlen
    simp at hDlen
  obtain ⟨dc, dt, hDc⟩ := List.exists_cons_of_ne_nil hDne
  have hdc : isDigitChar dc = true := hD dc (by rw [hDc]; exact List.mem_cons_self dc dt)
  have hOrdOpt : Re.runAll (.opt ordinalAlt) (',' :: ' ' :: Y) =
      [(([], ',' :: ' ' :: Y), [])] := by
    rw [runAll_opt_eq, show Re.runAll ordinalAlt (',' :: ' ' :: Y) = [] from rfl,
      List.nil_append]
  have htwD : (D ++ ',' :: ' ' :: Y).takeWhile isDigitChar = D :=
    takeWhile_digits_append D hD ',' (by decide) (' ' :: Y)
  have hchoices : repsChoices isDigitChar 1 (some 2) (D ++ ',' :: ' ' :: Y) =
      if D.length = 1 then [1] else [2, 1] := by
    unfold repsChoices
    dsimp only
    rw [htwD]
    rcases hDlen with h1 | h2
    · rw [h1, if_pos rfl]
      rfl
    · rw [h2, if_neg (by omega)]
      rfl
  have hreps : ∃ junkA, Re.runAll (.reps isDigitChar 1 (some 2)) (D ++ ',' :: ' ' :: Y) =
      ((D, ',' :: ' ' :: Y), []) :: junkA := by
    rw [runAll_reps_eq, hchoices]
    rcases hDlen with h1 | h2
    · refine ⟨[], ?_⟩
      rw [if_pos h1]
      simp only [List.map_cons, List.map_nil]
      rw [← h1, List.take_left, List.drop_left]
    · refine ⟨[(((D ++ ',' :: ' ' :: Y).take 1, (D ++ ',' :: ' ' :: Y).drop 1), [])], ?_⟩
      rw [if_neg (by omega)]
      simp only [List.map_cons, List.map_nil]
      rw [show (2 : Nat) = D.length from h2.symm, List.take_left, List.drop_left]
  obtain ⟨junkA, hA⟩ := hreps
  have hdayOpt0 : (Re.runAll (.opt (.group 3 (.reps isDigitChar 1 (some 2))))
      (D ++ ',' :: ' ' :: Y)).head? = some ((D, ',' :: ' ' :: Y), [(3, D)]) := by
    rw [runAll_opt_eq, runAll_group_eq, hA, List.map_cons, List.cons_append, List.head?_cons]
  obtain ⟨junkB, hB⟩ := exists_tail_of_head _ _ hdayOpt0
  have hdt0 : ((Re.runAll (.seq (.opt (.group 3 (.reps isDigitChar 1 (some 2))))
      (.opt ordinalAlt)) (D ++ ',' :: ' ' :: Y)).head?) =
      some ((D, ',' :: ' ' :: Y), [(3, D)]) := by
    rw [runAll_seq_eq, hB]
    simp only [List.flatMap_cons]
    rw [hOrdOpt]
    simp only [List.map_cons, List.map_nil, List.append_nil, List.cons_append,
      List.head?_cons]
  obtain ⟨junkC, hC⟩ := exists_tail_of_head _ _ hdt0
  have htwW : ((' ' :: (D ++ ',' :: ' ' :: Y)).takeWhile isWsChar) = [' '] := by
    rw [List.takeWhile_cons]
    simp only [show isWsChar ' ' = true from rfl, if_true]
    rw [hDc, List.cons_append, List.takeWhile_cons, ws_of_digit dc hdc]
    simp only [Bool.false_eq_true, if_false]
  have hws : Re.runAll (.reps isWsChar 0 none) (' ' :: (D ++ ',' :: ' ' :: Y)) =
      [(([' '], D ++ ',' :: ' ' :: Y), []), (([], ' ' :: (D ++ ',' :: ' ' :: Y)), [])] := by
    rw [runAll_reps_eq, show repsChoices isWsChar 0 none (' ' :: (D ++ ',' :: ' ' :: Y)) =
      [1, 0] from by unfold repsChoices; dsimp only; rw [htwW]; decide]
    rfl
  have h30 : (Re.runAll (.seq (.reps isWsChar 0 none)
      (.seq (.opt (.group 3 (.reps isDigitChar 1 (some 2)))) (.opt ordinalAlt)))
      (' ' :: (D ++ ',' :: ' ' :: Y))).head? =
      some ((' ' :: D, ',' :: ' ' :: Y), [(3, D)]) := by
    rw [runAll_seq_eq, hws]
    simp only [List.flatMap_cons, List.flatMap_nil, List.append_nil]
    rw [hC]
    simp only [List.map_cons, List.nil_append, List.cons_append, List.head?_cons]
  obtain ⟨junkD, hDq⟩ := exists_tail_of_head _ _ h30
  have h2full0 : (Re.runAll (.seq (.group 2 monthAlt)
      (.seq (.reps isWsChar 0 none)
        (.seq (.opt (.group 3 (.reps isDigitChar 1 (some 2)))) (.opt ordinalAlt))))
      (M ++ ' ' :: (D ++ ',' :: ' ' :: Y))).head? =
      some ((M ++ ' ' :: D, ',' :: ' ' :: Y), [(2, M), (3, D)]) := by
    rw [runAll_seq_eq, runAll_group_eq, hMa, List.map_cons]
    simp only [List.flatMap_cons]
    rw [hDq]
    simp only [List.map_cons, List.cons_append, List.nil_append, List.head?_cons]
  obtain ⟨junkE, hE⟩ := exists_tail_of_head _ _ h2full0
  have hpre : Re.runAll (.opt (.seq (.group 1 (.reps isDigitChar 1 (some 2)))
      (.seq (.opt ordinalAlt) (.reps isWsChar 1 none))))
      (M ++ ' ' :: (D ++ ',' :: ' ' :: Y)) =
      [(([], M ++ ' ' :: (D ++ ',' :: ' ' :: Y)), [])] := by
    rw [hM, List.cons_append]
    exact runAll_dayPrefix_skip mc _ hmc
  have hfull0 : (Re.runAll monthDayRe (M ++ ' ' :: (D ++ ',' :: ' ' :: Y))).head? =
      some ((M ++ ' ' :: D, ',' :: ' ' :: Y), [(2, M), (3, D)]) := by
    show (Re.runAll (.seq (.opt (.seq (.group 1 (.reps isDigitChar 1 (some 2)))
      (.seq (.opt ordinalAlt) (.reps isWsChar 1 none))))
      (.seq (.group 2 monthAlt)
        (.seq (.reps isWsChar 0 none)
          (.seq (.opt (.group 3 (.reps isDigitChar 1 (some 2)))) (.opt ordinalAlt)))))
      (M ++ ' ' :: (D ++ ',' :: ' ' :: Y))).head? = _
    rw [runAll_seq_eq, hpre]
    simp only [List.flatMap_cons, List.flatMap_nil, List.append_nil]
    rw [hE]
    simp only [List.map_cons, List.nil_append, List.head?_cons]
  obtain ⟨junkF, hF⟩ := exists_tail_of_head _ _ hfull0
  rw [hM, List.cons_append] at hF ⊢
  show (match Re.runAll monthDayRe (mc :: (mt ++ ' ' :: (D ++ ',' :: ' ' :: Y))) with
    | r :: _ => some r.2
    | [] => searchAux monthDayRe (mt ++ ' ' :: (D ++ ',' :: ' ' :: Y))) =
    some [(2, mc :: mt), (3, D)]
  rw [hF]

/-- The month-day pattern at a lower-cased month name, space, 1-2 digit
day, comma-space, anything: groups 2 and 3 capture the name and the day. -/
theorem searchAux_md_at_month (m dd : Int) (h1 : 1 ≤ m) (h2 : m ≤ 12)
    (hd1 : 1 ≤ dd) (hd2 : dd ≤ 31) (Y : List Char) :
    searchAux monthDayRe (lowerL (monthName m).data ++ ' ' ::
      (natToChars dd.toNat ++ ',' :: ' ' :: Y)) =
      some [(2, lowerL (monthName m).data), (3, natToChars dd.toNat)] := by
  have hMc : ∃ mc mt, lowerL (monthName m).data = mc :: mt ∧ isDigitChar mc = false := by
    interval_cases m <;> exact ⟨_, _, rfl, by decide⟩
  obtain ⟨mc, mt, hM, hmc⟩ := hMc
  have hDlen : (natToChars dd.toNat).length = 1 ∨ (natToChars dd.toNat).length = 2 := by
    by_cases h10 : dd.toNat < 10
    · left
      rw [natToChars_one dd.toNat (by omega)]
      rfl
    · right
      rw [natToChars_two dd.toNat (by omega) (by omega)]
      rfl
  exact scan_core _ _ Y mc mt hM hmc (runAll_monthAlt_at m h1 h2 _)
    (natToChars_all_digits dd.toNat) hDlen

/-- `trim` is the identity when neither end is whitespace. -/
theorem trimL_eq_self (l : List Char)
    (h1 : ∀ c, l.head? = some c → isWsChar c = false)
    (h2 : ∀ c, l.getLast? = some c → isWsChar c = false) : trimL l = l := by
  unfold trimL
  cases l with
  | nil => rfl
  | cons a t =>
    have ha : isWsChar a = false := h1 a rfl
    rw [List.dropWhile_cons]
    simp only [ha, Bool.false_eq_true, if_false]
    cases hrev : (a :: t).reverse with
    | nil => exact absurd hrev (by simp)
    | cons b s =>
      have hb : isWsChar b = false := by
        apply h2
        rw [← List.head?_reverse, hrev, List.head?_cons]
      rw [List.dropWhile_cons]
      simp only [hb, Bool.false_eq_true, if_false]
      rw [← hrev, List.reverse_reverse]

/-- Lower-cased weekday names: explicit head, no whitespace, length ≥ 6. -/
theorem weekday_lower_head (w : Int) (h1 : 0 ≤ w) (h2 : w ≤ 6) :
    ∃ c t, lowerL (weekdayName w).data = c :: t ∧ isWsChar c = false ∧
      6 ≤ (weekdayName w).data.length := by
  interval_cases w <;> exact ⟨_, _, rfl, by decide, by decide⟩

/-- Month names are at least 3 characters. -/
theorem monthName_len (m : Int) (h1 : 1 ≤ m) (h2 : m ≤ 12) :
    3 ≤ (monthName m).data.length := by
  interval_cases m <;> decide

/-- `monthNames.indexOf` on the lower-cased rendered month name gives the
0-based index. -/
theorem monthIndex_lower (m : Int) (h1 : 1 ≤ m) (h2 : m ≤ 12) :
    monthIndex (lowerL (lowerL (monthName m).data)) = some (m - 1) := by
  interval_cases m <;> rfl

/-- `parseInt` inverts decimal rendering for numbers up to two digits. -/
theorem charsToNat_natToChars (k : Nat) (h : k ≤ 99) :
    charsToNat (natToChars k) = k := by
  by_cases h10 : k < 10
  · rw [natToChars_one k (by omega)]
    show charsToNat [digitChar k] = k
    unfold charsToNat
    simp only [List.foldl_cons, List.foldl_nil]
    rw [digitVal_digitChar k (by omega)]
    omega
  · rw [natToChars_two k (by omega) (by omega),
      charsToNat_two (k / 10) (k % 10) (by omega) (by omega)]
    omega

/-- `formatDateForDisplay` on a four-digit-year `formatDate` output
renders the long en-US date of the same day number. -/
theorem display_of_formatDate (legacy : String → Option Int) (n : Int)
    (h1 : 1000 ≤ jsGetFullYear n) (h2 : jsGetFullYear n ≤ 9999) :
    formatDateForDisplay legacy (formatDate n) = renderLongDate n := by
  unfold formatDateForDisplay jsParseDate
  rw [isoParse_formatDate n h1 h2]

/-- Lower-casing distributes over append. -/
theorem lowerL_append (a b : List Char) : lowerL (a ++ b) = lowerL a ++ lowerL b :=
  List.map_append _ _ _

/-- Lower-casing on cons. -/
theorem lowerL_cons (c : Char) (t : List Char) :
    lowerL (c :: t) = toLowerChar c :: lowerL t := rfl

/-- `getLast?` ignores a cons before a non-empty list. -/
theorem getLast?_cons_of_ne_nil (a : Char) (l : List Char) (h : l ≠ []) :
    (a :: l).getLast? = l.getLast? := by
  rw [← List.singleton_append, List.getLast?_append_of_ne_nil _ h]

/-- Re-parsing the long display form of a four-digit-year day number `n`
resolves its month and day against today's year (rolling forward when
past), dropping the rendered year entirely. -/
theorem reparse_renderLongDate (legacy : String → Option Int) (today n : Int)
    (hy1 : 1000 ≤ jsGetFullYear n) (hy2 : jsGetFullYear n ≤ 9999) :
    parseNaturalDate legacy today (renderLongDate n) =
      some (formatDate (resolveMonthDay today (jsGetMonth n) (jsGetDate n))) := by
  have hw1 : 0 ≤ jsGetDay n := by unfold jsGetDay; omega
  have hw2 : jsGetDay n ≤ 6 := by unfold jsGetDay; omega
  obtain ⟨hm1, hm2, hd1, _hdm, hd31⟩ := civilFromDays_bounds n
  have hmm1 : 1 ≤ jsGetMonth n + 1 := by unfold jsGetMonth; omega
  have hmm2 : jsGetMonth n + 1 ≤ 12 := by unfold jsGetMonth; omega
  have hdd1 : 1 ≤ jsGetDate n := hd1
  have hdd31 : jsGetDate n ≤ 31 := hd31
  have hDd : ∀ c ∈ natToChars (jsGetDate n).toNat, isDigitChar c = true :=
    natToChars_all_digits _
  have hYd : ∀ c ∈ natToChars (jsGetFullYear n).toNat, isDigitChar c = true :=
    natToChars_all_digits _
  have hYne : natToChars (jsGetFullYear n).toNat ≠ [] := natToChars_ne_nil _
  obtain ⟨wc, wt, hwc, hwcws, hwlen⟩ := weekday_lower_head (jsGetDay n) hw1 hw2
  have hdata : (renderLongDate n).data =
      (weekdayName (jsGetDay n)).data ++ ',' :: ' ' ::
        ((monthName (jsGetMonth n + 1)).data ++ ' ' ::
          (natToChars (jsGetDate n).toNat ++ ',' :: ' ' ::
            natToChars (jsGetFullYear n).toNat)) := by
    unfold renderLongDate intToStr intToChars
    rw [if_neg (by omega), if_neg (by omega)]
    simp only [dataAppend, List.append_assoc]
    rfl
  have hlow : lowerL (renderLongDate n).data = lowerL (weekdayName (jsGetDay n)).data ++ ',' :: ' ' ::
      (lowerL (monthName (jsGetMonth n + 1)).data ++ ' ' ::
        (natToChars (jsGetDate n).toNat ++ ',' :: ' ' :: natToChars (jsGetFullYear n).toNat)) := by
    rw [hdata]
    simp only [lowerL_append, lowerL_cons, show toLowerChar ',' = ',' from rfl,
      show toLowerChar ' ' = ' ' from rfl,
      lowerL_digits _ hDd, lowerL_digits _ hYd]
  have htrim : trimL (lowerL (weekdayName (jsGetDay n)).data ++ ',' :: ' ' ::
      (lowerL (monthName (jsGetMonth n + 1)).data ++ ' ' ::
        (natToChars (jsGetDate n).toNat ++ ',' :: ' ' :: natToChars (jsGetFullYear n).toNat))) = lowerL (weekdayName (jsGetDay n)).data ++ ',' :: ' ' ::
      (lowerL (monthName (jsGetMonth n + 1)).data ++ ' ' ::
        (natToChars (jsGetDate n).toNat ++ ',' :: ' ' :: natToChars (jsGetFullYear n).toNat)) := by
    apply trimL_eq_self
    · intro c hc
      rw [hwc, List.cons_append, List.head?_cons, Option.some.injEq] at hc
      rw [← hc]
      exact hwcws
    · intro c hc
      rw [List.getLast?_append_of_ne_nil _ (by simp),
        getLast?_cons_of_ne_nil _ _ (by simp),
        getLast?_cons_of_ne_nil _ _ (by simp),
        List.getLast?_append_of_ne_nil _ (by simp),
        getLast?_cons_of_ne_nil _ _ (by simp),
        List.getLast?_append_of_ne_nil _ (by simp),
        getLast?_cons_of_ne_nil _ _ (by simp),
        getLast?_cons_of_ne_nil _ _ hYne] at hc
      obtain ⟨hne', rfl⟩ := List.mem_getLast?_eq_getLast (Option.mem_def.2 hc)
      exact ws_of_digit _ (hYd _ (List.getLast_mem hne'))
  have hL2 : trimL (lowerL (renderLongDate n).data) = lowerL (weekdayName (jsGetDay n)).data ++ ',' :: ' ' ::
      (lowerL (monthName (jsGetMonth n + 1)).data ++ ' ' ::
        (natToChars (jsGetDate n).toNat ++ ',' :: ' ' :: natToChars (jsGetFullYear n).toNat)) := by
    rw [hlow]
    exact htrim
  have htext_ne : ¬(renderLongDate n = "") := by
    intro he
    have h0 := congrArg String.data he
    rw [hdata] at h0
    exact absurd h0 (by simp)
  have hlen : 16 ≤ (lowerL (weekdayName (jsGetDay n)).data ++ ',' :: ' ' ::
      (lowerL (monthName (jsGetMonth n + 1)).data ++ ' ' ::
        (natToChars (jsGetDate n).toNat ++ ',' :: ' ' :: natToChars (jsGetFullYear n).toNat))).length := by
    simp only [List.length_append, List.length_cons, lowerL, List.length_map]
    have hMlen := monthName_len (jsGetMonth n + 1) hmm1 hmm2
    have hDlen : 0 < (natToChars (jsGetDate n).toNat).length :=
      List.length_pos.mpr (natToChars_ne_nil _)
    have hYlen : 0 < (natToChars (jsGetFullYear n).toNat).length :=
      List.length_pos.mpr hYne
    omega
  have hne1 : ¬((lowerL (weekdayName (jsGetDay n)).data ++ ',' :: ' ' ::
      (lowerL (monthName (jsGetMonth n + 1)).data ++ ' ' ::
        (natToChars (jsGetDate n).toNat ++ ',' :: ' ' :: natToChars (jsGetFullYear n).toNat))) = "today".data) := by
    intro he
    rw [he] at hlen
    exact absurd hlen (by decide)
  have hne2 : ¬((lowerL (weekdayName (jsGetDay n)).data ++ ',' :: ' ' ::
      (lowerL (monthName (jsGetMonth n + 1)).data ++ ' ' ::
        (natToChars (jsGetDate n).toNat ++ ',' :: ' ' :: natToChars (jsGetFullYear n).toNat))) = "tomorrow".data) := by
    intro he
    rw [he] at hlen
    exact absurd hlen (by decide)
  have hne4 : ¬((lowerL (weekdayName (jsGetDay n)).data ++ ',' :: ' ' ::
      (lowerL (monthName (jsGetMonth n + 1)).data ++ ' ' ::
        (natToChars (jsGetDate n).toNat ++ ',' :: ' ' :: natToChars (jsGetFullYear n).toNat))) = "next week".data) := by
    intro he
    rw [he] at hlen
    exact absurd hlen (by decide)
  have hday : containsSub "day after tomorrow".data (lowerL (weekdayName (jsGetDay n)).data ++ ',' :: ' ' ::
      (lowerL (monthName (jsGetMonth n + 1)).data ++ ' ' ::
        (natToChars (jsGetDate n).toNat ++ ',' :: ' ' :: natToChars (jsGetFullYear n).toNat))) = false := by
    rw [containsSub_day_skip_wd _ hw1 hw2, containsSub_day_skip_mn _ hmm1 hmm2,
      containsSub_day_digits _ hDd, containsSub_day_commaspace]
    exact containsSub_day_digits_none _ hYd
  have hnext : searchAux nextDayRe (lowerL (weekdayName (jsGetDay n)).data ++ ',' :: ' ' ::
      (lowerL (monthName (jsGetMonth n + 1)).data ++ ' ' ::
        (natToChars (jsGetDate n).toNat ++ ',' :: ' ' :: natToChars (jsGetFullYear n).toNat))) = none := by
    rw [searchAux_next_skip_wd _ hw1 hw2, searchAux_next_skip_mn _ hmm1 hmm2,
      searchAux_next_digits _ hDd, searchAux_next_commaspace]
    exact searchAux_next_digits_none _ hYd
  have hthis : searchAux thisDayRe (lowerL (weekdayName (jsGetDay n)).data ++ ',' :: ' ' ::
      (lowerL (monthName (jsGetMonth n + 1)).data ++ ' ' ::
        (natToChars (jsGetDate n).toNat ++ ',' :: ' ' :: natToChars (jsGetFullYear n).toNat))) = none := by
    rw [searchAux_this_skip_wd _ hw1 hw2, searchAux_this_skip_mn _ hmm1 hmm2,
      searchAux_this_digits _ hDd, searchAux_this_commaspace]
    exact searchAux_this_digits_none _ hYd
  have hmd : searchAux monthDayRe (lowerL (weekdayName (jsGetDay n)).data ++ ',' :: ' ' ::
      (lowerL (monthName (jsGetMonth n + 1)).data ++ ' ' ::
        (natToChars (jsGetDate n).toNat ++ ',' :: ' ' :: natToChars (jsGetFullYear n).toNat))) =
      some [(2, lowerL (monthName (jsGetMonth n + 1)).data),
        (3, natToChars (jsGetDate n).toNat)] := by
    rw [searchAux_md_skip_wd _ hw1 hw2]
    exact searchAux_md_at_month (jsGetMonth n + 1) (jsGetDate n) hmm1 hmm2 hdd1 hdd31 _
  unfold parseNaturalDate
  rw [if_neg htext_ne]
  dsimp only
  rw [hL2, if_neg hne1, if_neg hne2, if_neg (by simp [hday]), if_neg hne4, hnext]
  dsimp only
  rw [hthis]
  dsimp only
  rw [hmd]
  dsimp only
  rw [show (capL 2 [(2, lowerL (monthName (jsGetMonth n + 1)).data),
        (3, natToChars (jsGetDate n).toNat)]).getD [] =
      lowerL (monthName (jsGetMonth n + 1)).data from rfl,
    show (capL 1 [(2, lowerL (monthName (jsGetMonth n + 1)).data),
        (3, natToChars (jsGetDate n).toNat)]).or
      (capL 3 [(2, lowerL (monthName (jsGetMonth n + 1)).data),
        (3, natToChars (jsGetDate n).toNat)]) =
      some (natToChars (jsGetDate n).toNat) from rfl,
    monthIndex_lower (jsGetMonth n + 1) hmm1 hmm2]
  dsimp only
  rw [show jsGetMonth n + 1 - 1 = jsGetMonth n from by omega,
    show charsToNat (natToChars (jsGetDate n).toNat) = (jsGetDate n).toNat from
      charsToNat_natToChars _ (by omega),
    show Int.ofNat (jsGetDate n).toNat = jsGetDate n from Int.toNat_of_nonneg (by omega)]

/-! ## Claim C7 -/

/-- Claim C7 as stated is half right: `parseDate("tomorrow")` is indeed
today+1 in `YYYY-MM-DD`.  The round-trip half fails: the long display
form is re-parsed through the month-name branch, which drops the
rendered year and resolves against today's year (rolling forward when
past), so a 2024 date re-parses to 2027 when today is 2026-10-11. -/
theorem c7_counterexample :
    parseNaturalDate legacyNone demoToday "2024-01-01" = some "2024-01-01" ∧
    formatDateForDisplay legacyNone "2024-01-01" = "Monday, January 1, 2024" ∧
    parseNaturalDate legacyNone demoToday "Monday, January 1, 2024" =
      some "2027-01-01" ∧
    ¬(("2027-01-01" : String) = "2024-01-01") := by
  refine ⟨rfl, rfl, ?_, by decide⟩
  have h : ("Monday, January 1, 2024" : String) = renderLongDate 19723 := rfl
  rw [h, reparse_renderLongDate legacyNone demoToday 19723 (by decide) (by decide)]
  rfl

/-- Claim C7, amended: `parseDate("tomorrow")` equals today+1 as
`YYYY-MM-DD`; re-parsing a parseable date rendered in the long display
form yields the date's month and day resolved against today's year
(rolling forward when already past) — the rendered year is ignored, so
the round-trip holds exactly when that resolution returns the original
day number. -/
theorem c7_amended (legacy : String → Option Int) (today n : Int)
    (h1 : 1000 ≤ jsGetFullYear n) (h2 : jsGetFullYear n ≤ 9999) :
    parseNaturalDate legacy today "tomorrow" = some (formatDate (today + 1)) ∧
    parseNaturalDate legacy today (formatDateForDisplay legacy (formatDate n)) =
      some (formatDate (resolveMonthDay today (jsGetMonth n) (jsGetDate n))) := by
  refine ⟨rfl, ?_⟩
  rw [display_of_formatDate legacy n h1 h2]
  exact reparse_renderLongDate legacy today n h1 h2

/-- Witness for C7 amended: today 2026-10-11, n = 2026-12-25 (a
four-digit-year date), hypotheses discharged by evaluation. -/
theorem c7_witness :
    1000 ≤ jsGetFullYear 20812 ∧ jsGetFullYear 20812 ≤ 9999 ∧
    (parseNaturalDate legacyNone demoToday "tomorrow" =
        some (formatDate (demoToday + 1)) ∧
      parseNaturalDate legacyNone demoToday
          (formatDateForDisplay legacyNone (formatDate 20812)) =
        some (formatDate (resolveMonthDay demoToday (jsGetMonth 20812)
          (jsGetDate 20812)))) :=
  ⟨by decide, by decide, c7_amended legacyNone demoToday 20812 (by decide) (by decide)⟩

end VetChat
